import Mathlib

/-!
Verification of the DataDog/autoscaler VPA recommender core.

This development shallowly embeds the recommendation post-processing pipeline
of the vertical-pod-autoscaler recommender: the safety-margin modifier, the
resource-ratio enforcer, the replica-restrictions guard, the allowed-resource
filter, the external-mode recommendation engine, the external-metrics source
accumulation, and the external recommendations garbage collector.

Modelling conventions:
* Kubernetes resource.Quantity values are modelled by their exact numeric
  value as a rational number.  Quantity.Value() and Quantity.MilliValue()
  round up (ceiling), as documented in the Kubernetes API machinery.
* Go float64 arithmetic is modelled by exact rational arithmetic; every
  concrete value appearing in the verified scenarios is exactly
  representable in float64 and the modelled operations coincide with the
  float computations on those inputs.  Conversion int64(x) truncates toward
  zero.
* Go maps are modelled as association lists.  Where the Go code iterates a
  map in unspecified order and the order is observable (leaf selection in
  the ratio graph), the embedding is parametrised by an arbitrary choice
  function and theorems quantify over every choice.
* Go nil-map semantics: reading a missing key of a map yields the zero
  value; assigning into a nil map is a runtime fault.  Faults are modelled
  with an explicit error monad.
-/

namespace Autoscaler

/-- core/v1 ResourceName is a string type. -/
abbrev ResourceName := String

/-- v1.ResourceCPU -/
def cpuResource : ResourceName := "cpu"

/-- v1.ResourceMemory -/
def memoryResource : ResourceName := "memory"

/-- resource.Quantity, modelled by its exact numeric value (canonical units:
cores for CPU, bytes for memory). -/
abbrev Quantity := ℚ

/-- Quantity.MilliValue() returns ceil(q * 1000). -/
def milliValue (q : Quantity) : ℤ := Int.ceil (q * 1000)

/-- Quantity.Value() returns ceil(q). -/
def quantityValue (q : Quantity) : ℤ := Int.ceil q

/-- resource.NewMilliQuantity m — a quantity worth m/1000 units. -/
def newMilliQuantity (m : ℤ) : Quantity := (m : ℚ) / 1000

/-- resource.NewQuantity v. -/
def newQuantity (v : ℤ) : Quantity := (v : ℚ)

/-- Go int64(x) conversion of a float64: truncation toward zero. -/
def truncToInt (q : ℚ) : ℤ := if q < 0 then -(Int.floor (-q)) else Int.floor q

/-- core/v1 ResourceList (map ResourceName → Quantity) as an association
list; the Go maps hold each key at most once. -/
abbrev ResourceList := List (ResourceName × Quantity)

/-- Map lookup m[r] returning Option. -/
def rlGet? (rl : ResourceList) (r : ResourceName) : Option Quantity :=
  (rl.find? (fun e => e.1 == r)).map (fun e => e.2)

/-- ResourceList.Name(r, format): the stored quantity, or the zero quantity
when the key is absent (Go zero value). -/
def rlName (rl : ResourceList) (r : ResourceName) : Quantity :=
  (rlGet? rl r).getD 0

/-- Map assignment m[r] = q: replace in place or append. -/
def rlSet (rl : ResourceList) (r : ResourceName) (q : Quantity) : ResourceList :=
  if (rl.find? (fun e => e.1 == r)).isSome then
    rl.map (fun e => if e.1 == r then (r, q) else e)
  else
    rl ++ [(r, q)]

/-- vpa_types.RecommendedContainerResources. -/
structure RecommendedContainerResources where
  containerName : String
  target : ResourceList
  lowerBound : ResourceList
  upperBound : ResourceList
  uncappedTarget : ResourceList
deriving DecidableEq, Repr

/-- vpa_types.RecommendedPodResources. -/
structure RecommendedPodResources where
  containerRecommendations : List RecommendedContainerResources
deriving DecidableEq, Repr

/-!
## Allowed-resource filter

Embedding of `allowedResourceFilter` (package api): `Apply`,
`filterAllowedContainerResources`, `filterResourceList`, `containsResource`.
-/

/-- containsResource: linear scan of the allow-list. -/
def containsResource (resourceNames : List ResourceName) (tgt : ResourceName) : Bool :=
  resourceNames.any (fun r => tgt == r)

/-- filterResourceList: keep exactly the entries whose key is allowed. -/
def filterResourceList (resourceList : ResourceList) (allowedResources : List ResourceName) : ResourceList :=
  resourceList.filter (fun e => containsResource allowedResources e.1)

/-- filterAllowedContainerResources: filter all four fields. -/
def filterAllowedContainerResources (recommendation : RecommendedContainerResources)
    (allowedResources : List ResourceName) : RecommendedContainerResources :=
  { recommendation with
    target := filterResourceList recommendation.target allowedResources
    lowerBound := filterResourceList recommendation.lowerBound allowedResources
    upperBound := filterResourceList recommendation.upperBound allowedResources
    uncappedTarget := filterResourceList recommendation.uncappedTarget allowedResources }

/-- allowedResourceFilter.Apply: rewrite every container recommendation. -/
def allowedResourceFilterApply (allowedResources : List ResourceName)
    (podRecommendation : RecommendedPodResources) : RecommendedPodResources :=
  { containerRecommendations :=
      podRecommendation.containerRecommendations.map
        (fun cr => filterAllowedContainerResources cr allowedResources) }

/-!
## External recommendations state and garbage collection

Embedding of `ExternalRecommendationsState` (package model of the external
recommender): `GarbageCollect` and `RateLimitedGarbageCollect`.
time.Time is modelled as an integer (nanoseconds); `now.Sub(t)` is `now - t`.
-/

/-- time.Time as integer nanoseconds. -/
abbrev GoTime := ℤ

/-- ObsoleteRecommendationThreshold = time.Hour * 1, in nanoseconds. -/
def obsoleteRecommendationThreshold : ℤ := 3600 * 1000000000

/-- model.VpaID. -/
structure VpaID where
  namespaceName : String
  vpaName : String
deriving DecidableEq, Repr

/-- ContainerRecommendationState: raw external resources plus timestamp. -/
structure ContainerRecommendationState where
  rawRecommendation : List (ResourceName × ℤ)
  time : GoTime
deriving DecidableEq, Repr

/-- VpaRecommendationState: container states plus creation time. -/
structure VpaRecommendationState where
  id : VpaID
  containers : List (String × ContainerRecommendationState)
  created : GoTime
deriving DecidableEq, Repr

/-- ExternalRecommendationsState. -/
structure ExternalRecommendationsState where
  vpas : List (VpaID × VpaRecommendationState)
  lastGC : GoTime
  gcInterval : ℤ
deriving DecidableEq, Repr

/-- The inner container sweep of GarbageCollect: delete the container entries
with now.Sub(time) > ObsoleteRecommendationThreshold. -/
def pruneContainers (now : GoTime) (v : VpaRecommendationState) : VpaRecommendationState :=
  { v with containers :=
      v.containers.filter (fun c => decide (¬ now - c.2.time > obsoleteRecommendationThreshold)) }

/-- ExternalRecommendationsState.GarbageCollect: sweep containers of every
VPA; then keep any VPA younger than the threshold; delete a VPA left with no
containers. -/
def garbageCollect (now : GoTime) (s : ExternalRecommendationsState) : ExternalRecommendationsState :=
  { s with vpas := s.vpas.filterMap (fun p =>
      let pruned := pruneContainers now p.2
      if now - p.2.created < obsoleteRecommendationThreshold then some (p.1, pruned)
      else if pruned.containers.isEmpty then none
      else some (p.1, pruned)) }

/-- ExternalRecommendationsState.RateLimitedGarbageCollect. -/
def rateLimitedGarbageCollect (now : GoTime) (s : ExternalRecommendationsState) : ExternalRecommendationsState :=
  if now - s.lastGC < s.gcInterval then s
  else { garbageCollect now s with lastGC := now }

/-!
## Safety-margin modifier post-processor

Embedding of safety_margin_modifier_post_processor.go: the JSON annotation
decoding (with Go encoding/json semantics), applyModifier, and Process.
-/

/-- Generic Go map (string-keyed) lookup. -/
def assocGet? {β : Type} (l : List (String × β)) (k : String) : Option β :=
  (l.find? (fun e => e.1 == k)).map (fun e => e.2)

/-- Generic Go map assignment m[k] = v. -/
def assocSet {β : Type} (l : List (String × β)) (k : String) (v : β) : List (String × β) :=
  if (l.find? (fun e => e.1 == k)).isSome then
    l.map (fun e => if e.1 == k then (k, v) else e)
  else l ++ [(k, v)]

/-- Generic Go map delete(m, k). -/
def assocErase {β : Type} (l : List (String × β)) (k : String) : List (String × β) :=
  l.filter (fun e => e.1 != k)

/-- modifierFunction (iota enum). -/
inductive ModifierFunction where
  | undefined
  | linear
  | log
  | affine
  | exponential
deriving DecidableEq, Repr

/-- safetyMarginFunction. -/
structure SafetyMarginFunction where
  function : ModifierFunction
  parameters : List ℚ
deriving DecidableEq, Repr

/-- safetyMarginModifier = map[v1.ResourceName]safetyMarginFunction. -/
abbrev SafetyMarginModifier := List (ResourceName × SafetyMarginFunction)

/-- A parsed JSON document; annotation values are JSON texts and the claims
only involve well-formed JSON, so values enter the embedding already
parsed. -/
inductive Jval where
  | str (s : String)
  | num (q : ℚ)
  | arr (xs : List Jval)
  | obj (fields : List (String × Jval))
  | tru
  | fls
  | null

/-- Helper: a JSON number, viewed as a float64 target. -/
def jnumQ? : Jval → Option ℚ
  | .num q => some q
  | _ => none

/-- Decoding a JSON value into Go []float64: must be an array of numbers
(Go reports an UnmarshalTypeError otherwise). -/
def unmarshalFloatList : Jval → Except String (List ℚ)
  | .arr xs =>
      match xs.mapM jnumQ? with
      | some qs => .ok qs
      | none => .error "json: cannot unmarshal value into Go value of type float64"
  | _ => .error "json: cannot unmarshal value into Go value of type []float64"

/-- strings.ToLower (ASCII is all the source needs). -/
def strToLower (s : String) : String := String.mk (s.data.map Char.toLower)

/-- modifierFunction.UnmarshalJSON: decode a JSON string, lower-case it and
match the four recognized function names; anything else is an error. -/
def unmarshalModifierFunction : Jval → Except String ModifierFunction
  | .str s =>
      let t := strToLower s
      if t = "linear" then .ok .linear
      else if t = "log" then .ok .log
      else if t = "affine" then .ok .affine
      else if t = "exponential" then .ok .exponential
      else .error "cannot unmarshall string into ModifierFunction"
  | _ => .error "json: cannot unmarshal value into Go value of type string"

/-- Decoding a JSON value into the safetyMarginFunction struct: the value
must be a JSON object (Go encoding/json raises an UnmarshalTypeError when a
string, number or array is decoded into a struct); object keys are matched
to the exported fields Function and Parameters case-insensitively; unknown
keys are ignored; later duplicates overwrite. -/
def unmarshalSafetyMarginFunction : Jval → Except String SafetyMarginFunction
  | .obj fields =>
      fields.foldlM (fun acc kv =>
        if strToLower kv.1 = "function" then
          (unmarshalModifierFunction kv.2).map (fun f => { acc with function := f })
        else if strToLower kv.1 = "parameters" then
          (unmarshalFloatList kv.2).map (fun ps => { acc with parameters := ps })
        else .ok acc)
        { function := .undefined, parameters := [] }
  | _ => .error "json: cannot unmarshal value into Go value of type safetyMarginFunction"

/-- json.Unmarshal into map[v1.ResourceName]safetyMarginFunction: the
document must be a JSON object and every element value must decode as the
struct.  Go records the first UnmarshalTypeError while continuing to
populate the rest of the map, and Unmarshal then returns that error; the
caller in src only tests err != nil and discards the map on error, so the
embedding simply propagates the first error.  (For the single-modifier
annotation form the conclusion does not hinge on this: even the partially
populated map would only hold the keys "function" and "parameters", which
name no resource and no wildcard, so no modification could result.) -/
def unmarshalSafetyMarginModifier : Jval → Except String SafetyMarginModifier
  | .obj fields =>
      fields.foldlM (fun acc kv =>
        (unmarshalSafetyMarginFunction kv.2).map (fun f => assocSet acc kv.1 f)) []
  | _ => .error "json: cannot unmarshal value into Go value of type map"

/-- Modelled from the spec: the constant vpaPostProcessorPrefix is declared
outside src/ (upstream post-processor plumbing); spec §6 gives the
annotation domain vpa-post-processor.<domain>/. -/
def vpaPostProcessorKeyDomain : String := "vpa-post-processor.kubernetes.io/"

/-- vpaPostProcessorSafetyMarginModifierSuffix. -/
def vpaPostProcessorSafetyMarginModifierSuffix : String := "_safetyMarginModifier"

/-- Modelled from the spec: the helper extractContainerName is declared
outside src/.  Spec §6: annotation keys have the shape
vpa-post-processor.<domain>/<container>_safetyMarginModifier; the helper
returns the container name when the key carries the given leading and
trailing parts and the empty string otherwise. -/
def extractContainerName (key pre suf : String) : String :=
  if pre.data.isPrefixOf key.data ∧ suf.data.isSuffixOf key.data then
    let rest := key.data.drop pre.data.length
    String.mk (rest.take (rest.length - suf.data.length))
  else ""

/-- The wildcard rule of readSafetyMarginModifierFromVPAAnnotations: when
key "*" is present, delete it and duplicate its value to cpu and memory. -/
def applyWildcard (m : SafetyMarginModifier) : SafetyMarginModifier :=
  match assocGet? m "*" with
  | none => m
  | some v => assocSet (assocSet (assocErase m "*") cpuResource v) memoryResource v

/-- readSafetyMarginModifierFromVPAAnnotations: for every annotation whose
key names a container, decode the JSON value; on a decode error skip that
container; otherwise apply the wildcard rule and record the modifier. -/
def readSafetyMarginModifierFromVPAAnnotations (annots : List (String × Jval)) :
    List (String × SafetyMarginModifier) :=
  annots.foldl (fun acc kv =>
    let containerName :=
      extractContainerName kv.1 vpaPostProcessorKeyDomain vpaPostProcessorSafetyMarginModifierSuffix
    if containerName = "" then acc
    else
      match unmarshalSafetyMarginModifier kv.2 with
      | .error _ => acc
      | .ok m => assocSet acc containerName (applyWildcard m)) []

/-- Abstraction of the float64 transcendental functions math.Log10 and
math.Pow used by the log and exponential modifiers; no verified scenario
exercises them and the theorems quantify over the oracle. -/
structure MathOracle where
  log10 : ℚ → ℚ
  pow : ℚ → ℚ → ℚ

/-- A concrete oracle for closed evaluations. -/
def defaultOracle : MathOracle := { log10 := fun _ => 0, pow := fun _ _ => 0 }

/-- linearModifier: value / defaultSafetyMargin * slope. -/
def linearModifier (rec : Quantity) (defaultSafetyMargin slope : ℚ) : ℚ :=
  (quantityValue rec : ℚ) / defaultSafetyMargin * slope

/-- affineModifier: value / defaultSafetyMargin * slope + constant. -/
def affineModifier (rec : Quantity) (defaultSafetyMargin cst slope : ℚ) : ℚ :=
  (quantityValue rec : ℚ) / defaultSafetyMargin * slope + cst

/-- logModifier: rawRec + log10(rawRec) * factor. -/
def logModifier (o : MathOracle) (rec : Quantity) (defaultSafetyMargin factor : ℚ) : ℚ :=
  let rawRec := (quantityValue rec : ℚ) / defaultSafetyMargin
  rawRec + o.log10 rawRec * factor

/-- exponentialModifier: rawRec + rawRec^exponent * factor. -/
def exponentialModifier (o : MathOracle) (rec : Quantity) (defaultSafetyMargin exponent factor : ℚ) : ℚ :=
  let rawRec := (quantityValue rec : ℚ) / defaultSafetyMargin
  rawRec + o.pow rawRec exponent * factor

/-- Emission of the modified amount: CPU as NewMilliQuantity(int64(newRec)),
others as NewQuantity(int64(newRec)). -/
def emitQuantity (r : ResourceName) (newRec : ℚ) : Quantity :=
  if r == cpuResource then newMilliQuantity (truncToInt newRec) else newQuantity (truncToInt newRec)

/-- SafetyMarginModifierPostProcessor.applyModifier: for each resource that
has a modifier, scale CPU to milli-units, evaluate the modifier formula
(with the parameter-count checks of the source) and write the new quantity
back; a wrong parameter count aborts with an error.  Resources without a
modifier, and the undefined function, leave the entry unchanged. -/
def applyModifier (o : MathOracle) (defaultSafetyMarginFactor : ℚ)
    (containerRec : ResourceList) (modifier : SafetyMarginModifier) :
    Except String ResourceList :=
  containerRec.foldlM (fun acc e =>
    match assocGet? modifier e.1 with
    | none => .ok (acc ++ [e])
    | some resourceModifier =>
        let recCopy : Quantity := if e.1 == cpuResource then ((milliValue e.2 : ℚ)) else e.2
        match resourceModifier.function with
        | .undefined => .ok (acc ++ [e])
        | .linear =>
            if resourceModifier.parameters.length ≠ 1 then
              .error "linear modifier requires 1 parameter"
            else
              .ok (acc ++ [(e.1, emitQuantity e.1
                (linearModifier recCopy defaultSafetyMarginFactor (resourceModifier.parameters.getD 0 0)))])
        | .affine =>
            if resourceModifier.parameters.length ≠ 2 then
              .error "affine modifier requires 2 parameters"
            else
              .ok (acc ++ [(e.1, emitQuantity e.1
                (affineModifier recCopy defaultSafetyMarginFactor (resourceModifier.parameters.getD 0 0)
                  (resourceModifier.parameters.getD 1 0)))])
        | .log =>
            if resourceModifier.parameters.length ≠ 1 then
              .error "log modifier requires 1 parameter"
            else
              .ok (acc ++ [(e.1, emitQuantity e.1
                (logModifier o recCopy defaultSafetyMarginFactor (resourceModifier.parameters.getD 0 0)))])
        | .exponential =>
            if resourceModifier.parameters.length ≠ 2 then
              .error "exponential modifier requires 2 parameters"
            else
              .ok (acc ++ [(e.1, emitQuantity e.1
                (exponentialModifier o recCopy defaultSafetyMarginFactor (resourceModifier.parameters.getD 0 0)
                  (resourceModifier.parameters.getD 1 0)))])) []

/-- Sequential mapping with first-error short-circuit, mirroring the Go
loop over container recommendations. -/
def exceptMapList {α β : Type} (f : α → Except String β) : List α → Except String (List β)
  | [] => .ok []
  | x :: xs => do
      let y ← f x
      let ys ← exceptMapList f xs
      .ok (y :: ys)

/-- One container's processing in SafetyMarginModifierPostProcessor.Process:
apply its modifier (when present) to LowerBound, Target, UpperBound and
UncappedTarget, in the source's order. -/
def containerModifierResult (o : MathOracle) (defaultSafetyMarginFactor : ℚ)
    (modifiers : List (String × SafetyMarginModifier))
    (cr : RecommendedContainerResources) : Except String RecommendedContainerResources :=
  match assocGet? modifiers cr.containerName with
  | none => .ok cr
  | some modifier => do
      let lb ← applyModifier o defaultSafetyMarginFactor cr.lowerBound modifier
      let tg ← applyModifier o defaultSafetyMarginFactor cr.target modifier
      let ub ← applyModifier o defaultSafetyMarginFactor cr.upperBound modifier
      let ut ← applyModifier o defaultSafetyMarginFactor cr.uncappedTarget modifier
      .ok { cr with lowerBound := lb, target := tg, upperBound := ub, uncappedTarget := ut }

/-- SafetyMarginModifierPostProcessor.Process: deep-copy the recommendation
and rewrite each container that has a modifier; the first error from
applyModifier makes Process return the ORIGINAL recommendation. -/
def safetyMarginProcess (o : MathOracle) (defaultSafetyMarginFactor : ℚ)
    (annots : List (String × Jval)) (recommendation : RecommendedPodResources) :
    RecommendedPodResources :=
  let modifiers := readSafetyMarginModifierFromVPAAnnotations annots
  match exceptMapList (containerModifierResult o defaultSafetyMarginFactor modifiers)
      recommendation.containerRecommendations with
  | .ok crs => { containerRecommendations := crs }
  | .error _ => recommendation

/-!
## Replica-restrictions guard

Embedding of ReplicaRestrictionsPostProcessor (package routines):
readRangeFromVPAAnnotations, isUpscale, isDownscale, isRestrictedScaling,
applyRestrictedScalingVPAPolicy,
getRecommendationForContainerWithRestrictedScaling, apply and Process.
-/

/-- vpa_types update modes. -/
inductive UpdateMode where
  | off
  | initial
  | recreate
  | auto
  | trigger
deriving DecidableEq, Repr

/-- apiv1.Container restricted to what the guard reads: name and resource
requests. -/
structure GoContainer where
  name : String
  requests : ResourceList
deriving DecidableEq, Repr

/-- apiv1.Pod restricted to its container lists. -/
structure GoPod where
  containers : List GoContainer
  initContainers : List GoContainer
deriving DecidableEq, Repr

/-- getContainer: search Containers, then InitContainers. -/
def getContainer (containerName : String) (pod : GoPod) : Option GoContainer :=
  match pod.containers.find? (fun c => c.name == containerName) with
  | some c => some c
  | none => pod.initContainers.find? (fun c => c.name == containerName)

/-- isUpscale: some resource of the recommendation strictly exceeds the
container's current request (compared in milli-units; a missing request
reads as the zero quantity). -/
def isUpscale (recommendation : ResourceList) (containerOriginalResources : ResourceList) : Bool :=
  recommendation.any (fun e =>
    decide (milliValue (rlName containerOriginalResources e.1) < milliValue (rlName recommendation e.1)))

/-- isDownscale: some resource of the recommendation is strictly below the
container's current request. -/
def isDownscale (recommendation : ResourceList) (containerOriginalResources : ResourceList) : Bool :=
  recommendation.any (fun e =>
    decide (milliValue (rlName recommendation e.1) < milliValue (rlName containerOriginalResources e.1)))

/-- isRestrictedScaling: an upscale with replicas ≤ upscaleIfMoreReplicasThan,
or a downscale with replicas ≥ downscaleIfLessReplicasThan, restricts the
whole container. -/
def isRestrictedScaling (containerRecommendation : RecommendedContainerResources)
    (container : GoContainer) (downscaleIfLessReplicasThan upscaleIfMoreReplicasThan replicas : ℤ) : Bool :=
  (isUpscale containerRecommendation.target container.requests && decide (replicas ≤ upscaleIfMoreReplicasThan)) ||
  (isDownscale containerRecommendation.target container.requests && decide (downscaleIfLessReplicasThan ≤ replicas))

/-- applyRestrictedScalingVPAPolicy: when restricted, every resource of the
recommendation is overwritten with the container's current request for that
resource (Go map indexing: a missing request reads as the zero quantity). -/
def applyRestrictedScalingVPAPolicy (recommendation : ResourceList) (isRestricted : Bool)
    (containerOriginalResources : ResourceList) : ResourceList :=
  recommendation.map (fun e =>
    if isRestricted then (e.1, rlName containerOriginalResources e.1) else e)

/-- getRecommendationForContainerWithRestrictedScaling: deep-copy the
container recommendation and rewrite only its Target. -/
def getRecommendationForContainerWithRestrictedScaling (container : GoContainer)
    (containerRecommendation : RecommendedContainerResources)
    (replicas downscaleIfLessReplicasThan upscaleIfMoreReplicasThan : ℤ) : RecommendedContainerResources :=
  let isRestricted := isRestrictedScaling containerRecommendation container
    downscaleIfLessReplicasThan upscaleIfMoreReplicasThan replicas
  { containerRecommendation with
    target := applyRestrictedScalingVPAPolicy containerRecommendation.target isRestricted container.requests }

/-- ReplicaRestrictionsPostProcessor.apply: process each container that has
a matching pod container; containers with no match are dropped. -/
def replicaRestrictionsApply (podRecommendation : RecommendedPodResources)
    (replicas downscaleIfLessReplicasThan upscaleIfMoreReplicasThan : ℤ) (pod : GoPod) :
    RecommendedPodResources :=
  { containerRecommendations := podRecommendation.containerRecommendations.filterMap (fun cr =>
      match getContainer cr.containerName pod with
      | none => none
      | some c => some (getRecommendationForContainerWithRestrictedScaling c cr replicas
          downscaleIfLessReplicasThan upscaleIfMoreReplicasThan)) }

/-- A JSON number that fits Go int (integral value); json.Unmarshal errors
on a fractional number into []int. -/
def jintZ? : Jval → Option ℤ
  | .num q => if q.den = 1 then some q.num else none
  | _ => none

/-- vpaPostProcessorReplicaRestrictedRangeSuffix. -/
def vpaPostProcessorReplicaRestrictedRangeSuffix : String := "replicaRestrictedRange"

/-- readRangeFromVPAAnnotations: the single annotation whose key is exactly
prefix+suffix, decoded as a two-element []int; .ok none when absent. -/
def readRangeFromVPAAnnotations (annots : List (String × Jval)) : Except String (Option (List ℤ)) :=
  match annots.find? (fun kv =>
      kv.1 == vpaPostProcessorKeyDomain ++ vpaPostProcessorReplicaRestrictedRangeSuffix) with
  | none => .ok none
  | some kv =>
      match kv.2 with
      | .arr xs =>
          match xs.mapM jintZ? with
          | none => .error "skipping restrictions definition due to bad format"
          | some zs =>
              if zs.length ≠ 2 then .error "skipping restrictions definition due to bad format"
              else .ok (some zs)
      | _ => .error "skipping restrictions definition due to bad format"

/-- model.Vpa restricted to what the replica guard reads. -/
structure ReplicaVpa where
  annots : List (String × Jval)
  updateMode : UpdateMode
  podCount : ℤ

/-- ReplicaRestrictionsPostProcessor.Process.  The controller fetch
GetPodTemplateFromTopMostWellKnown is declared outside src/ (upstream
controller fetcher); it is modelled as an explicit parameter carrying its
result, and newPodFromTemplate is the identity on the modelled pod. -/
def replicaRestrictionsProcess (vpa : ReplicaVpa) (fetched : Except String GoPod)
    (recommendation : Option RecommendedPodResources) : Option RecommendedPodResources :=
  match recommendation with
  | none => none
  | some rec =>
      match readRangeFromVPAAnnotations vpa.annots with
      | .error _ => some rec
      | .ok none => some rec
      | .ok (some range) =>
          match range with
          | [downscaleIfLessReplicasThan, upscaleIfMoreReplicasThan] =>
              if upscaleIfMoreReplicasThan ≤ downscaleIfLessReplicasThan then some rec
              else if vpa.updateMode ≠ .off ∧ vpa.updateMode ≠ .trigger then some rec
              else
                match fetched with
                | .error _ => some rec
                | .ok pod => some (replicaRestrictionsApply rec vpa.podCount
                    downscaleIfLessReplicasThan upscaleIfMoreReplicasThan pod)
          | _ => some rec

/-!
## Resource-ratio enforcer

Embedding of ResourceRatioRecommendationPostProcessor (package routines):
the graph construction of addEdge, getOrderedListAndPredecessors (leaf
elimination), getMaintainedRatiosCalculationOrder,
applyMaintainRatioVPAPolicy and
getRecommendationForContainerWithRatioApplied.  The Go map iteration that
selects which leaf to remove next is unspecified; the embedding takes an
arbitrary choice function `pick` and the theorems hold for every choice.
-/

/-- resourceRatio: one dependency edge with an optional explicit ratio. -/
structure ResourceRatioRule where
  original : ResourceName
  target : ResourceName
  ratio : Option ℚ
deriving DecidableEq, Repr

/-- The dependency edges of a ratio list. -/
def ratioEdges (ratios : List ResourceRatioRule) : List (ResourceName × ResourceName) :=
  ratios.map (fun rr => (rr.original, rr.target))

/-- Insert a node if not already present (resourceGraph.addEdge creates each
node once). -/
def addNode (l : List ResourceName) (n : ResourceName) : List ResourceName :=
  if l.contains n then l else l ++ [n]

/-- The node set of the graph: addEdge registers the `to` node and then the
`from` node of every edge. -/
def nodesOf (edges : List (ResourceName × ResourceName)) : List ResourceName :=
  edges.foldl (fun acc e => addNode (addNode acc e.2) e.1) []

/-- A node is a leaf of the remaining graph when it has no edge to a node
still present (children edges disappear when the child is removed). -/
def isLeaf (edges : List (ResourceName × ResourceName)) (s : List ResourceName)
    (v : ResourceName) : Bool :=
  edges.all (fun e => !(e.1 == v && s.contains e.2))

/-- The leaves of the remaining node set. -/
def leavesOf (edges : List (ResourceName × ResourceName)) (s : List ResourceName) :
    List ResourceName :=
  s.filter (isLeaf edges s)

/-- The leaf-elimination loop of getOrderedListAndPredecessors: repeatedly
remove a leaf chosen by `pick`; returns the removal sequence, or none when
nodes remain but no leaf exists (cyclic graph).  Fuel equals the initial
node count. -/
def elimOrder (edges : List (ResourceName × ResourceName)) (pick : ℕ → List ResourceName → ℕ) :
    ℕ → ℕ → List ResourceName → Option (List ResourceName)
  | 0, _, s => if s.isEmpty then some [] else none
  | fuel + 1, step, s =>
      if s.isEmpty then some []
      else
        let ls := leavesOf edges s
        if ls.isEmpty then none
        else
          let v := ls.getD (pick step ls % ls.length) ""
          (elimOrder edges pick fuel (step + 1) (s.erase v)).map (fun rest => v :: rest)

/-- getOrderedListAndPredecessors, ordered-list half: the removal sequence
reversed (the Go loop prepends each removed leaf), root first. -/
def getSortedResources (edges : List (ResourceName × ResourceName))
    (pick : ℕ → List ResourceName → ℕ) : Option (List ResourceName) :=
  let s := nodesOf edges
  (elimOrder edges pick s.length 0 s).map List.reverse

/-- getOrderedListAndPredecessors, predecessors half: at the moment a node
is removed its parent set still holds every original predecessor (a parent
cannot be removed while an edge to a present child remains), so the
recorded predecessor keys are exactly the distinct sources of the edges
into the node. -/
def predsOf (edges : List (ResourceName × ResourceName)) (t : ResourceName) : List ResourceName :=
  ((edges.filter (fun e => e.2 == t)).map (fun e => e.1)).dedup

/-- indexedRatio key: original+"-"+target. -/
def ratioKeyStr (a b : ResourceName) : String := a ++ "-" ++ b

/-- indexedRatio lookup: the map is built by insertion over the ratio list,
so the last entry with a matching key wins; a missing key would yield the
Go zero struct. -/
def indexedRatioGet (ratios : List ResourceRatioRule) (k : String) : ResourceRatioRule :=
  ((ratios.filter (fun rr => ratioKeyStr rr.original rr.target == k)).getLast?).getD
    { original := "", target := "", ratio := none }

/-- getMaintainedRatiosCalculationOrder: fail when the graph is cyclic; fail
when some node has more than one predecessor; otherwise emit, in root-first
order, the ratio rule leading into each node that has a predecessor. -/
def getMaintainedRatiosCalculationOrder (pick : ℕ → List ResourceName → ℕ)
    (ratios : List ResourceRatioRule) : Except String (List ResourceRatioRule) :=
  let edges := ratioEdges ratios
  match getSortedResources edges pick with
  | none => .error "Error the graph is not acyclic"
  | some ordered =>
      if ordered.any (fun t => decide (1 < (predsOf edges t).length)) then
        .error "Resource has more than one predecessor in maintainedRatios"
      else
        .ok (ordered.foldl (fun acc r =>
          match predsOf edges r with
          | [] => acc
          | p :: _ => acc ++ [indexedRatioGet ratios (ratioKeyStr p r)]) [])

/-- applyMaintainRatioVPAPolicy: with a nil policy, or when the calculation
order cannot be computed, the recommendation is returned unchanged;
otherwise each ordered rule sets rec[target] := milli(rec[original]) * ratio
(as a milli-quantity), the ratio being the explicit one or the pod
template's target/original milli ratio, skipping the rule when the
template's original request is zero. -/
def applyMaintainRatioVPAPolicy (pick : ℕ → List ResourceName → ℕ)
    (recommendation : ResourceList) (ratiosPolicies : List ResourceRatioRule)
    (containerOriginalResources : ResourceList) : ResourceList :=
  if ratiosPolicies.isEmpty then recommendation
  else
    match getMaintainedRatiosCalculationOrder pick ratiosPolicies with
    | .error _ => recommendation
    | .ok orderedRules =>
        orderedRules.foldl (fun rec rc =>
          let step : Option ℚ :=
            match rc.ratio with
            | some x => some x
            | none =>
                let qA := rlName containerOriginalResources rc.original
                let qB := rlName containerOriginalResources rc.target
                if milliValue qA = 0 then none
                else some ((milliValue qB : ℚ) / (milliValue qA : ℚ))
          match step with
          | none => rec
          | some ratioV =>
              let rA := rlName rec rc.original
              rlSet rec rc.target (newMilliQuantity (truncToInt ((milliValue rA : ℚ) * ratioV))))
          recommendation

/-- getRecommendationForContainerWithRatioApplied: apply the policy to
Target, LowerBound and UpperBound of a deep copy. -/
def getRecommendationForContainerWithRatioApplied (pick : ℕ → List ResourceName → ℕ)
    (container : GoContainer) (containerRecommendation : RecommendedContainerResources)
    (containerPolicy : List ResourceRatioRule) : RecommendedContainerResources :=
  { containerRecommendation with
    target := applyMaintainRatioVPAPolicy pick containerRecommendation.target containerPolicy container.requests
    lowerBound := applyMaintainRatioVPAPolicy pick containerRecommendation.lowerBound containerPolicy container.requests
    upperBound := applyMaintainRatioVPAPolicy pick containerRecommendation.upperBound containerPolicy container.requests }

/-- An edge of the ratio graph. -/
def edgeMem (edges : List (ResourceName × ResourceName)) (a b : ResourceName) : Prop :=
  (a, b) ∈ edges

/-- A directed cycle v :: rest of length ≥ 1: consecutive edges along the
list and an edge from its last element back to v; rest = [] is a
self-loop. -/
def IsCycle (edges : List (ResourceName × ResourceName)) (v : ResourceName)
    (rest : List ResourceName) : Prop :=
  List.Chain (edgeMem edges) v (rest ++ [v])

/-- The edge set contains a cycle of length ≥ 1. -/
def HasCycle (edges : List (ResourceName × ResourceName)) : Prop :=
  ∃ v rest, IsCycle edges v rest

/-- Some node has two distinct predecessors. -/
def HasMultiPredecessor (edges : List (ResourceName × ResourceName)) : Prop :=
  ∃ s₁ s₂ t, s₁ ≠ s₂ ∧ (s₁, t) ∈ edges ∧ (s₂, t) ∈ edges

/-!
## External mode recommendation engine

Embedding of podResourceRecommender.GetRecommendedPodResources (package
logic of recommender-external).  The upstream helpers ResourceAmount,
ScaleResource, CPUAmountFromCores, MemoryAmountFromBytes,
FilterControlledResources, GetControlledResources and the flags
PodMinCPUMillicores, PodMinMemoryMb, SafetyMarginFraction are declared
outside src/; they are modelled from the spec below.
-/

/-- Modelled from the spec: Resources maps resource names to amounts (CPU in
milli-units, memory in bytes, spec §3); amounts are modelled exactly. -/
abbrev ExtResources := List (ResourceName × ℚ)

/-- AggregateContainerState restricted to what the external engine reads. -/
structure AggregateState where
  controlledResources : Option (List ResourceName)
deriving DecidableEq, Repr

/-- Modelled from the spec: ScaleResource multiplies an amount by a factor
(spec §4.4 minimum floors and safety margins are plain products and
quotients). -/
def scaleResource (amount factor : ℚ) : ℚ := amount * factor

/-- Modelled from the spec: the default controlled set is CPU and Memory
(spec §4.4 filtering). -/
def defaultControlledResources : List ResourceName := [cpuResource, memoryResource]

/-- Modelled from the spec: FilterControlledResources restricts emitted
resources to the controlled set (spec §4.4 filtering). -/
def filterControlledResources (resources : ExtResources) (controlled : List ResourceName) :
    ExtResources :=
  resources.filter (fun e => controlled.contains e.1)

/-- The configuration flags the external engine reads. -/
structure ExternalEngineParams where
  podMinCPUMillicores : ℚ
  podMinMemoryMb : ℚ
  safetyMarginFraction : ℚ
deriving DecidableEq, Repr

/-- The per-container minimum floors: the configured pod minima (CPU in
milli-units via CPUAmountFromCores(min*0.001), memory in bytes via
MemoryAmountFromBytes(minMb*1024*1024)) scaled by 1/#containers; a Go map
read of any other resource yields 0. -/
def minResourcesFor (p : ExternalEngineParams) (fraction : ℚ) (r : ResourceName) : ℚ :=
  if r = cpuResource then scaleResource p.podMinCPUMillicores fraction
  else if r = memoryResource then scaleResource (p.podMinMemoryMb * 1024 * 1024) fraction
  else 0

/-- upstream_logic.RecommendedContainerResources (engine-level shape). -/
structure ExtRecommendedContainerResources where
  target : ExtResources
  lowerBound : ExtResources
  upperBound : ExtResources
deriving DecidableEq, Repr

/-- podResourceRecommender.GetRecommendedPodResources: empty input yields an
empty recommendation; otherwise each container with a raw recommendation
gets margins added, the per-resource minimum floor applied, and — when its
aggregate state exists — Target = LowerBound = UpperBound of the controlled
filtering of the result; containers without aggregate state are skipped. -/
def getRecommendedPodResources (p : ExternalEngineParams)
    (containerNameToRecommendedResources : List (String × ExtResources))
    (containerNameToAggregateStateMap : List (String × AggregateState)) :
    List (String × ExtRecommendedContainerResources) :=
  if containerNameToRecommendedResources.isEmpty then []
  else
    let fraction : ℚ := 1 / (containerNameToRecommendedResources.length : ℚ)
    containerNameToRecommendedResources.filterMap (fun kv =>
      let withMargin := kv.2.map (fun e => (e.1, e.2 + scaleResource e.2 p.safetyMarginFraction))
      let floored := withMargin.map (fun e =>
        (e.1, if e.2 < minResourcesFor p fraction e.1 then minResourcesFor p fraction e.1 else e.2))
      match assocGet? containerNameToAggregateStateMap kv.1 with
      | none => none
      | some agg =>
          let controlled := agg.controlledResources.getD defaultControlledResources
          let filtered := filterControlledResources floored controlled
          some (kv.1, { target := filtered, lowerBound := filtered, upperBound := filtered }))

/-!
## External-metrics source

Embedding of externalMetricsClient (metrics_source.go): containerId,
addMetrics and List.  The nested podContainerResourceMap is only ever
created empty and its inner maps are never initialized, so every assignment
of a sample hits Go's assignment-to-nil-map runtime fault; results are
modelled in an explicit result type distinguishing ordinary errors from
runtime faults.  Timestamp and window bookkeeping, which does not bear on
success or failure, is omitted.
-/

/-- Generic association-list lookup for arbitrary decidable keys. -/
def alistGet? {κ β : Type} [DecidableEq κ] (l : List (κ × β)) (k : κ) : Option β :=
  (l.find? (fun e => decide (e.1 = k))).map (fun e => e.2)

/-- Generic association-list assignment. -/
def alistSet {κ β : Type} [DecidableEq κ] (l : List (κ × β)) (k : κ) (v : β) : List (κ × β) :=
  if (l.find? (fun e => decide (e.1 = k))).isSome then
    l.map (fun e => if e.1 = k then (k, v) else e)
  else l ++ [(k, v)]

/-- The outcome of a Go call: a value, a returned error, or a runtime
fault. -/
inductive GoResult (α : Type) where
  | ok (val : α)
  | err (msg : String)
  | fault (msg : String)
deriving DecidableEq, Repr

/-- model.PodID. -/
structure MetricsPodID where
  namespaceName : String
  podName : String
deriving DecidableEq, Repr

/-- model.ContainerID. -/
structure MetricsContainerID where
  podID : MetricsPodID
  containerName : String
deriving DecidableEq, Repr

/-- externalmetricsv1beta1.ExternalMetricValue restricted to what the source
reads. -/
structure ExternalMetricValue where
  metricLabels : List (String × String)
  value : ℚ
deriving DecidableEq, Repr

/-- ExternalClientOptions. -/
structure ExternalClientOptions where
  resourceMetrics : List (ResourceName × String)
  podNamespaceLabel : String
  podNameLabel : String
  ctrNamespaceLabel : String
  ctrPodNameLabel : String
  ctrNameLabel : String
deriving DecidableEq, Repr

/-- externalMetricsClient.containerId: some exactly when the pod-namespace,
pod-name and container-name label keys are all present. -/
def containerIdOf (opts : ExternalClientOptions) (value : ExternalMetricValue) :
    Option MetricsContainerID :=
  match assocGet? value.metricLabels opts.podNamespaceLabel,
        assocGet? value.metricLabels opts.podNameLabel,
        assocGet? value.metricLabels opts.ctrNameLabel with
  | some podNS, some podName, some ctrName =>
      some { podID := { namespaceName := podNS, podName := podName }, containerName := ctrName }
  | _, _, _ => none

/-- podContainerResourceMap. -/
abbrev PodContainerResourceMap := List (MetricsPodID × List (String × ResourceList))

/-- externalMetricsClient.addMetrics: for each value with a container id,
execute resourceMap[pod][container][name] = value.  Reading a missing pod
or container key yields a nil inner map, and the assignment into it is a
runtime fault. -/
def addMetrics (opts : ExternalClientOptions) (name : ResourceName) :
    List ExternalMetricValue → PodContainerResourceMap → GoResult PodContainerResourceMap
  | [], m => .ok m
  | val :: rest, m =>
      match containerIdOf opts val with
      | none => addMetrics opts name rest m
      | some id =>
          match alistGet? m id.podID with
          | none => .fault "assignment to entry in nil map"
          | some inner =>
              match alistGet? inner id.containerName with
              | none => .fault "assignment to entry in nil map"
              | some rl =>
                  addMetrics opts name rest
                    (alistSet m id.podID (alistSet inner id.containerName (rlSet rl name val.value)))

/-- model.Vpa restricted to what the external-metrics source reads. -/
structure MetricsVpa where
  idNamespace : String
  podCount : ℤ
  podSelector : String
deriving DecidableEq, Repr

/-- The inner loop of externalMetricsClient.List: one query per configured
(resource, metric); a backend error fails the listing; an empty result is
skipped; otherwise the values are accumulated with addMetrics. -/
def metricsQueryLoop (opts : ExternalClientOptions)
    (backend : String → String → Except String (List ExternalMetricValue)) (vpa : MetricsVpa) :
    List (ResourceName × String) → PodContainerResourceMap → GoResult PodContainerResourceMap
  | [], m => .ok m
  | (resourceName, metricName) :: rest, m =>
      match backend metricName vpa.podSelector with
      | .error e => .err e
      | .ok items =>
          if items.isEmpty then metricsQueryLoop opts backend vpa rest m
          else
            match addMetrics opts resourceName items m with
            | .ok m2 => metricsQueryLoop opts backend vpa rest m2
            | .err e => .err e
            | .fault f => .fault f

/-- externalMetricsClient.List: iterate the VPAs of the cluster state,
skipping those with no pods or outside the requested namespace; query all
configured metrics into a fresh podContainerResourceMap; emit one item per
accumulated pod. -/
def externalMetricsList (opts : ExternalClientOptions)
    (backend : String → String → Except String (List ExternalMetricValue)) (ns : String) :
    List MetricsVpa → GoResult (List (MetricsPodID × List (String × ResourceList)))
  | [] => .ok []
  | vpa :: rest =>
      if vpa.podCount = 0 then externalMetricsList opts backend ns rest
      else if ns ≠ "" ∧ vpa.idNamespace ≠ ns then externalMetricsList opts backend ns rest
      else
        match metricsQueryLoop opts backend vpa opts.resourceMetrics [] with
        | .err e => .err e
        | .fault f => .fault f
        | .ok workloadValues =>
            match externalMetricsList opts backend ns rest with
            | .ok restItems => .ok (workloadValues ++ restItems)
            | .err e => .err e
            | .fault f => .fault f

/-!
## Concrete scenario inputs
-/

/-- Scenario E1 container: Target cpu "1", memory "200Mi" (209715200 bytes). -/
def e1Container : RecommendedContainerResources :=
  { containerName := "c"
    target := [(cpuResource, 1), (memoryResource, 209715200)]
    lowerBound := []
    upperBound := []
    uncappedTarget := [] }

/-- Scenario E1 recommendation. -/
def e1Rec : RecommendedPodResources := { containerRecommendations := [e1Container] }

/-- Scenario E1 annotation: the single-modifier form with function Linear
and parameters [1.20]. -/
def e1Annots : List (String × Jval) :=
  [("vpa-post-processor.kubernetes.io/c_safetyMarginModifier",
    Jval.obj [("function", Jval.str "Linear"), ("parameters", Jval.arr [Jval.num (6/5)])])]

/-- Scenario E2 annotation: the mapping form with Affine modifiers for cpu
(parameters [100, 1.1], milli-units) and memory (parameters
[104857600, 1.1], bytes). -/
def e2Annots : List (String × Jval) :=
  [("vpa-post-processor.kubernetes.io/c_safetyMarginModifier",
    Jval.obj [("cpu", Jval.obj [("function", Jval.str "Affine"),
                ("parameters", Jval.arr [Jval.num 100, Jval.num (11/10)])]),
              ("memory", Jval.obj [("function", Jval.str "Affine"),
                ("parameters", Jval.arr [Jval.num 104857600, Jval.num (11/10)])])])]

/-- Scenario E2 expected output container: Target cpu "1.2", memory "320Mi"
(335544320 bytes). -/
def e2Expected : RecommendedContainerResources :=
  { containerName := "c"
    target := [(cpuResource, 6/5), (memoryResource, 335544320)]
    lowerBound := []
    upperBound := []
    uncappedTarget := [] }

/-- C3 container A: Target cpu "1". -/
def c3ContainerA : RecommendedContainerResources :=
  { containerName := "A"
    target := [(cpuResource, 1)]
    lowerBound := []
    upperBound := []
    uncappedTarget := [] }

/-- C3 container B: Target cpu "1". -/
def c3ContainerB : RecommendedContainerResources :=
  { containerName := "B"
    target := [(cpuResource, 1)]
    lowerBound := []
    upperBound := []
    uncappedTarget := [] }

/-- C3 recommendation with containers A and B. -/
def c3Rec : RecommendedPodResources := { containerRecommendations := [c3ContainerA, c3ContainerB] }

/-- C3 annotations: A carries a well-formed Linear [1.2] cpu modifier; B
carries a recognized function (Linear) with zero parameters. -/
def c3Annots : List (String × Jval) :=
  [("vpa-post-processor.kubernetes.io/A_safetyMarginModifier",
    Jval.obj [("cpu", Jval.obj [("function", Jval.str "Linear"),
                ("parameters", Jval.arr [Jval.num (6/5)])])]),
   ("vpa-post-processor.kubernetes.io/B_safetyMarginModifier",
    Jval.obj [("cpu", Jval.obj [("function", Jval.str "Linear"),
                ("parameters", Jval.arr [])])])]

/-- C2 pod: one container with current requests cpu "5", memory "3". -/
def c2Pod : GoPod :=
  { containers := [{ name := "ctr", requests := [(cpuResource, 5), (memoryResource, 3)] }]
    initContainers := [] }

/-- C2 container recommendation: Target cpu "10" (an upscale of cpu) and
memory "2" (a downscale of memory); bounds as proposed. -/
def c2Container : RecommendedContainerResources :=
  { containerName := "ctr"
    target := [(cpuResource, 10), (memoryResource, 2)]
    lowerBound := [(cpuResource, 10), (memoryResource, 2)]
    upperBound := [(cpuResource, 150), (memoryResource, 2)]
    uncappedTarget := [] }

/-- C2 recommendation. -/
def c2Rec : RecommendedPodResources := { containerRecommendations := [c2Container] }

/-- C2 VPA: update mode Off, replicaRestrictedRange [10,100], 5 replicas. -/
def c2Vpa : ReplicaVpa :=
  { annots := [("vpa-post-processor.kubernetes.io/replicaRestrictedRange",
      Jval.arr [Jval.num 10, Jval.num 100])]
    updateMode := .off
    podCount := 5 }

/-- C2 witness VPA: same annotation, 105 replicas (outside the band). -/
def c2VpaPass : ReplicaVpa :=
  { annots := [("vpa-post-processor.kubernetes.io/replicaRestrictedRange",
      Jval.arr [Jval.num 10, Jval.num 100])]
    updateMode := .off
    podCount := 105 }

/-- Scenario E3 ratio annotation content: cpu drives memory, no explicit
ratio. -/
def e3Ratios : List ResourceRatioRule :=
  [{ original := cpuResource, target := memoryResource, ratio := none }]

/-- Scenario E3 pod template requests: cpu "1", memory "3000". -/
def e3Requests : ResourceList := [(cpuResource, 1), (memoryResource, 3000)]

/-- Scenario E3 input recommendation: cpu "1", memory "1". -/
def e3RecList : ResourceList := [(cpuResource, 1), (memoryResource, 1)]

/-- C6 witness ratio list: a self-loop cpu → cpu. -/
def c6Ratios : List ResourceRatioRule :=
  [{ original := cpuResource, target := cpuResource, ratio := none }]

/-- C7 witness inputs: one container with a raw recommendation below the
minima. -/
def c7Recs : List (String × ExtResources) :=
  [("container-1", [(cpuResource, 1), (memoryResource, 1000000)])]

/-- C7 witness aggregate states. -/
def c7Aggs : List (String × AggregateState) := [("container-1", { controlledResources := none })]

/-- C7 witness engine parameters. -/
def c7Params : ExternalEngineParams :=
  { podMinCPUMillicores := 25, podMinMemoryMb := 250, safetyMarginFraction := 15/100 }

/-- C7 witness expected output entry: margins applied then floored to the
minima (25 millicores and 250 MiB = 262144000 bytes). -/
def c7Out : ExtRecommendedContainerResources :=
  { target := [(cpuResource, 25), (memoryResource, 262144000)]
    lowerBound := [(cpuResource, 25), (memoryResource, 262144000)]
    upperBound := [(cpuResource, 25), (memoryResource, 262144000)] }

/-- C4 witness options. -/
def c4Opts : ExternalClientOptions :=
  { resourceMetrics := [(cpuResource, "cpu.metric")]
    podNamespaceLabel := "kube_namespace"
    podNameLabel := "pod_name"
    ctrNamespaceLabel := "kube_namespace"
    ctrPodNameLabel := "pod_name"
    ctrNameLabel := "kube_container_name"
    }

/-- C4 witness metric value carrying all three configured label keys. -/
def c4Value : ExternalMetricValue :=
  { metricLabels := [("kube_namespace", "ns"), ("pod_name", "p"), ("kube_container_name", "c")]
    value := 1 }

/-- C10 witness state: one VPA created at time 0 with one fresh and one
obsolete container entry, and one VPA created at time 0 with a single
obsolete container entry. -/
def c10State : ExternalRecommendationsState :=
  { vpas :=
      [({ namespaceName := "ns", vpaName := "a" },
        { id := { namespaceName := "ns", vpaName := "a" }
          containers :=
            [("fresh", { rawRecommendation := [(cpuResource, 100)], time := 7200000000000 }),
             ("old", { rawRecommendation := [(cpuResource, 200)], time := 0 })]
          created := 0 }),
       ({ namespaceName := "ns", vpaName := "b" },
        { id := { namespaceName := "ns", vpaName := "b" }
          containers := [("old", { rawRecommendation := [], time := 0 })]
          created := 0 })]
    lastGC := 0
    gcInterval := 600000000000 }

/-- C10 witness clock: two hours, so the "old" entries (age two hours) are
past the one-hour threshold while "fresh" (age zero) is not. -/
def c10Now : GoTime := 7200000000000


/-- C2 expected code output container: the whole Target reverted to the
current requests, bounds untouched. -/
def c2OutContainer : RecommendedContainerResources :=
  { containerName := "ctr"
    target := [(cpuResource, 5), (memoryResource, 3)]
    lowerBound := [(cpuResource, 10), (memoryResource, 2)]
    upperBound := [(cpuResource, 150), (memoryResource, 2)]
    uncappedTarget := [] }

/-- C2 witness container: a pure cpu upscale (memory unchanged). -/
def c2PassContainer : RecommendedContainerResources :=
  { containerName := "ctr"
    target := [(cpuResource, 10), (memoryResource, 3)]
    lowerBound := [(cpuResource, 10), (memoryResource, 3)]
    upperBound := [(cpuResource, 150), (memoryResource, 3)]
    uncappedTarget := [] }

/-- C2 witness recommendation. -/
def c2PassRec : RecommendedPodResources := { containerRecommendations := [c2PassContainer] }

theorem containsResource_iff {L : List ResourceName} {x : ResourceName} :
    containsResource L x = true ↔ x ∈ L := by
  constructor
  · intro h
    obtain ⟨r, hr, he⟩ := List.any_eq_true.mp h
    exact (beq_iff_eq.mp he) ▸ hr
  · intro h
    exact List.any_eq_true.mpr ⟨x, h, beq_iff_eq.mpr rfl⟩

theorem mem_filterResourceList {rl : ResourceList} {L : List ResourceName} {e : ResourceName × Quantity}
    (h : e ∈ filterResourceList rl L) : e.1 ∈ L := by
  have := List.mem_filter.mp h
  exact containsResource_iff.mp this.2

theorem mem_filterResourceList_of {rl : ResourceList} {L : List ResourceName} {e : ResourceName × Quantity}
    (h : e ∈ rl) (hL : e.1 ∈ L) : e ∈ filterResourceList rl L :=
  List.mem_filter.mpr ⟨h, containsResource_iff.mpr hL⟩

/-- Claim C9: after the allowed-resource filter, every resource present in
any of Target, LowerBound, UpperBound and UncappedTarget of every container
recommendation is in the allow-list, and every allowed resource present
before keeps its original quantity. -/
theorem c9_allowedResourceFilter (L : List ResourceName) (rec : RecommendedPodResources) :
    (∀ cr ∈ (allowedResourceFilterApply L rec).containerRecommendations,
      (∀ e ∈ cr.target, e.1 ∈ L) ∧ (∀ e ∈ cr.lowerBound, e.1 ∈ L) ∧
      (∀ e ∈ cr.upperBound, e.1 ∈ L) ∧ (∀ e ∈ cr.uncappedTarget, e.1 ∈ L)) ∧
    (∀ cr ∈ rec.containerRecommendations,
      filterAllowedContainerResources cr L ∈ (allowedResourceFilterApply L rec).containerRecommendations ∧
      (∀ e ∈ cr.target, e.1 ∈ L → e ∈ (filterAllowedContainerResources cr L).target) ∧
      (∀ e ∈ cr.lowerBound, e.1 ∈ L → e ∈ (filterAllowedContainerResources cr L).lowerBound) ∧
      (∀ e ∈ cr.upperBound, e.1 ∈ L → e ∈ (filterAllowedContainerResources cr L).upperBound) ∧
      (∀ e ∈ cr.uncappedTarget, e.1 ∈ L → e ∈ (filterAllowedContainerResources cr L).uncappedTarget)) := by
  constructor
  · intro cr hcr
    obtain ⟨cr0, hcr0, rfl⟩ := List.mem_map.mp hcr
    refine ⟨?_, ?_, ?_, ?_⟩ <;> intro e he <;> exact mem_filterResourceList he
  · intro cr hcr
    refine ⟨List.mem_map.mpr ⟨cr, hcr, rfl⟩, ?_, ?_, ?_, ?_⟩ <;>
      intro e he hL <;> exact mem_filterResourceList_of he hL

/-- Claim C9 witness: a concrete instance of the filter theorem. -/
theorem c9_allowedResourceFilter_witness :
    ∀ e ∈ (filterAllowedContainerResources e1Container [cpuResource]).target, e.1 ∈ [cpuResource] := by
  intro e he
  exact ((c9_allowedResourceFilter [cpuResource] e1Rec).1 _
    (List.mem_map.mpr ⟨e1Container, List.mem_singleton.mpr rfl, rfl⟩)).1 e he

/-- Claim C1, evaluated at the failing input: processing scenario E1 — the
single-modifier annotation form Linear [1.20], default safety margin 1.0,
Target cpu "1", memory "200Mi" — returns the recommendation UNCHANGED for
every math oracle (the Target cpu stays 1, not the expected 1.2):
json.Unmarshal of the single-modifier object into
map[ResourceName]safetyMarginFunction fails with an UnmarshalTypeError, so
readSafetyMarginModifierFromVPAAnnotations skips the annotation and no
modification is applied. -/
theorem c1_safetyMargin_singleModifierForm_skipped :
    ∀ o : MathOracle,
      safetyMarginProcess o 1 e1Annots e1Rec = e1Rec ∧
      rlGet? ((safetyMarginProcess o 1 e1Annots e1Rec).containerRecommendations.headD
        e1Container).target cpuResource = some 1 ∧
      (1 : ℚ) ≠ 6/5 :=
  fun _ => ⟨by with_unfolding_all rfl, by with_unfolding_all rfl, by norm_num⟩

/-- Claim C8: processing scenario E2 — the mapping annotation form with
Affine cpu [100, 1.1] and Affine memory [104857600, 1.1], default safety
margin 1.0, Target cpu "1", memory "200Mi" — yields Target cpu "1.2" and
memory "320Mi" (335544320 bytes) for every math oracle: the affine formula
r*slope + constant is applied to the value divided by the default margin,
CPU being scaled to milli-units first and emitted as a milli-quantity. -/
theorem c8_safetyMargin_affineMapping_applied :
    ∀ o : MathOracle, safetyMarginProcess o 1 e2Annots e1Rec =
      { containerRecommendations := [e2Expected] } :=
  fun _ => by with_unfolding_all rfl

theorem exceptMapList_error_of_mem {α β : Type} (f : α → Except String β) (l : List α)
    (x : α) (hx : x ∈ l) (he : ∃ msg, f x = .error msg) :
    ∃ msg, exceptMapList f l = .error msg := by
  induction l with
  | nil => cases hx
  | cons hd tl ih =>
      rcases List.mem_cons.mp hx with rfl | hmem
      · obtain ⟨msg, hmsg⟩ := he
        exact ⟨msg, by simp only [exceptMapList, hmsg]; rfl⟩
      · cases hf : f hd with
        | error msg => exact ⟨msg, by simp only [exceptMapList, hf]; rfl⟩
        | ok y =>
            obtain ⟨msg, hmsg⟩ := ih hmem
            exact ⟨msg, by simp only [exceptMapList, hf, hmsg]; rfl⟩

/-- Claim C3 counterexample: with container A carrying a well-formed Linear
[1.2] cpu modifier and container B carrying Linear with zero parameters,
Process returns the ORIGINAL recommendation — A's Target cpu stays 1
instead of the 1.2 the claim requires. -/
theorem c3_safetyMargin_errorScope_counterexample :
    safetyMarginProcess defaultOracle 1 c3Annots c3Rec = c3Rec ∧
    (safetyMarginProcess defaultOracle 1 c3Annots c3Rec).containerRecommendations.map
      (fun cr => (cr.containerName, rlGet? cr.target cpuResource)) =
      [("A", some 1), ("B", some 1)] ∧
    some (1 : ℚ) ≠ some (6/5 : ℚ) :=
  ⟨by with_unfolding_all rfl, by with_unfolding_all rfl, by norm_num⟩

/-- Claim C3 (amended): when any container recommendation carries a
modifier whose application fails (wrong parameter count for a recognized
function), the safety-margin post-processor returns the ENTIRE original
recommendation unchanged — the error discards every other container's
modification rather than skipping only the offending container. -/
theorem c3_safetyMargin_error_reverts_all (o : MathOracle) (dm : ℚ)
    (annots : List (String × Jval)) (rec : RecommendedPodResources)
    (h : ∃ cr ∈ rec.containerRecommendations, ∃ msg,
      containerModifierResult o dm (readSafetyMarginModifierFromVPAAnnotations annots) cr =
        .error msg) :
    safetyMarginProcess o dm annots rec = rec := by
  obtain ⟨cr, hcr, hmsg⟩ := h
  obtain ⟨msg, hm⟩ := exceptMapList_error_of_mem _ _ cr hcr hmsg
  simp [safetyMarginProcess, hm]

/-- Claim C3 witness: the amended theorem applied to the concrete A/B
scenario. -/
theorem c3_safetyMargin_error_reverts_all_witness :
    safetyMarginProcess defaultOracle 1 c3Annots c3Rec = c3Rec :=
  c3_safetyMargin_error_reverts_all defaultOracle 1 c3Annots c3Rec
    ⟨c3ContainerB, by with_unfolding_all decide,
      ⟨"linear modifier requires 1 parameter", by with_unfolding_all rfl⟩⟩

theorem alist_nodup_keys_inj {α β : Type} {l : List (α × β)}
    (h : (l.map Prod.fst).Nodup) {p q : α × β} (hp : p ∈ l) (hq : q ∈ l)
    (hk : p.1 = q.1) : p = q := by
  induction l with
  | nil => cases hp
  | cons hd tl ih =>
      simp only [List.map_cons, List.nodup_cons] at h
      rcases List.mem_cons.mp hp with rfl | hp' <;> rcases List.mem_cons.mp hq with rfl | hq'
      · rfl
      · refine absurd ?_ h.1
        rw [hk]
        exact List.mem_map.mpr ⟨q, hq', rfl⟩
      · refine absurd ?_ h.1
        rw [← hk]
        exact List.mem_map.mpr ⟨p, hp', rfl⟩
      · exact ih h.2 hp' hq'

/-- The kept entry produced by the GC body for an entry that survives. -/
theorem c10_gcBody_some {now : GoTime} {p : VpaID × VpaRecommendationState}
    (h : ¬ (obsoleteRecommendationThreshold ≤ now - p.2.created ∧
      ∀ c ∈ p.2.containers, obsoleteRecommendationThreshold < now - c.2.time)) :
    (if now - p.2.created < obsoleteRecommendationThreshold then some (p.1, pruneContainers now p.2)
     else if (pruneContainers now p.2).containers.isEmpty then none
     else some (p.1, pruneContainers now p.2)) = some (p.1, pruneContainers now p.2) := by
  by_cases hyoung : now - p.2.created < obsoleteRecommendationThreshold
  · simp [hyoung]
  · have hold : obsoleteRecommendationThreshold ≤ now - p.2.created := not_lt.mp hyoung
    have hex : ¬ ∀ c ∈ p.2.containers, obsoleteRecommendationThreshold < now - c.2.time := by
      intro hall; exact h ⟨hold, hall⟩
    rw [not_forall] at hex
    obtain ⟨c, hcc⟩ := hex
    rw [not_forall] at hcc
    obtain ⟨hc, hckeep⟩ := hcc
    have hne : (pruneContainers now p.2).containers ≠ [] := by
      intro hempty
      have hcmem : c ∈ (pruneContainers now p.2).containers :=
        List.mem_filter.mpr ⟨hc, decide_eq_true hckeep⟩
      rw [hempty] at hcmem
      cases hcmem
    simp [hyoung, List.isEmpty_iff, hne]

/-- Claim C10: after GarbageCollect(now), no container entry older than the
obsolescence threshold remains; a VPA entry is removed exactly when all its
container entries were obsolete and it was created at least the threshold
before now; surviving entries keep their identity and their non-obsolete
container states unchanged; and RateLimitedGarbageCollect is the identity
within gcInterval of the previous collection. -/
theorem c10_externalRecommendations_gc (now : GoTime) (s : ExternalRecommendationsState)
    (hkeys : (s.vpas.map Prod.fst).Nodup) :
    (∀ p ∈ (garbageCollect now s).vpas, ∀ c ∈ p.2.containers,
        ¬ obsoleteRecommendationThreshold < now - c.2.time) ∧
    (∀ p ∈ s.vpas,
        ((∀ q ∈ (garbageCollect now s).vpas, q.1 ≠ p.1) ↔
          (obsoleteRecommendationThreshold ≤ now - p.2.created ∧
           ∀ c ∈ p.2.containers, obsoleteRecommendationThreshold < now - c.2.time))) ∧
    (∀ p ∈ s.vpas,
        ¬ (obsoleteRecommendationThreshold ≤ now - p.2.created ∧
           ∀ c ∈ p.2.containers, obsoleteRecommendationThreshold < now - c.2.time) →
          (p.1, pruneContainers now p.2) ∈ (garbageCollect now s).vpas) ∧
    (∀ p ∈ s.vpas, ∀ c ∈ p.2.containers,
        ¬ obsoleteRecommendationThreshold < now - c.2.time →
          c ∈ (pruneContainers now p.2).containers) ∧
    (now - s.lastGC < s.gcInterval → rateLimitedGarbageCollect now s = s) := by
  have hkeep : ∀ p ∈ s.vpas,
      ¬ (obsoleteRecommendationThreshold ≤ now - p.2.created ∧
        ∀ c ∈ p.2.containers, obsoleteRecommendationThreshold < now - c.2.time) →
      (p.1, pruneContainers now p.2) ∈ (garbageCollect now s).vpas := by
    intro p hp h
    exact List.mem_filterMap.mpr ⟨p, hp, c10_gcBody_some h⟩
  refine ⟨?_, ?_, hkeep, ?_, ?_⟩
  · intro p hp c hc
    obtain ⟨p0, _, hbody⟩ := List.mem_filterMap.mp hp
    have hform : p = (p0.1, pruneContainers now p0.2) := by
      by_cases hyoung : now - p0.2.created < obsoleteRecommendationThreshold
      · simp [hyoung] at hbody; exact hbody.symm
      · by_cases hempty : (pruneContainers now p0.2).containers.isEmpty
        · simp [hyoung, hempty] at hbody
        · simp [hyoung, hempty] at hbody; exact hbody.symm
    subst hform
    exact of_decide_eq_true (List.mem_filter.mp hc).2
  · intro p hp
    constructor
    · intro hnone
      by_contra h
      exact hnone _ (hkeep p hp h) rfl
    · intro hcond q hq hkq
      obtain ⟨p0, hp0, hbody⟩ := List.mem_filterMap.mp hq
      have hq1 : q.1 = p0.1 := by
        by_cases hyoung : now - p0.2.created < obsoleteRecommendationThreshold
        · simp [hyoung] at hbody; rw [← hbody]
        · by_cases hempty : (pruneContainers now p0.2).containers.isEmpty
          · simp [hyoung, hempty] at hbody
          · simp [hyoung, hempty] at hbody; rw [← hbody]
      have hpp : p0 = p := alist_nodup_keys_inj hkeys hp0 hp (by rw [← hq1, hkq])
      subst hpp
      have hyoung : ¬ now - p0.2.created < obsoleteRecommendationThreshold := not_lt.mpr hcond.1
      have hempty : (pruneContainers now p0.2).containers = [] := by
        apply List.filter_eq_nil_iff.mpr
        intro c hc hdec
        exact of_decide_eq_true hdec (hcond.2 c hc)
      have hie : (pruneContainers now p0.2).containers.isEmpty = true := by
        rw [hempty]; rfl
      simp [hyoung, hie] at hbody
  · intro p hp c hc hckeep
    exact List.mem_filter.mpr ⟨hc, decide_eq_true hckeep⟩
  · intro hlt
    simp [rateLimitedGarbageCollect, hlt]

/-- Claim C10 witness: the GC theorem applied to the concrete two-VPA
state at the two-hour mark. -/
theorem c10_externalRecommendations_gc_witness :
    (∀ p ∈ (garbageCollect c10Now c10State).vpas, ∀ c ∈ p.2.containers,
      ¬ obsoleteRecommendationThreshold < c10Now - c.2.time) ∧
    (c10Now - c10State.lastGC < c10State.gcInterval →
      rateLimitedGarbageCollect c10Now c10State = c10State) := by
  have h := c10_externalRecommendations_gc c10Now c10State (by with_unfolding_all decide)
  exact ⟨h.1, h.2.2.2.2⟩


/-- Claim C2 counterexample: update mode Off, range [10,100], 5 replicas,
current requests cpu "5" / memory "3", proposed Target cpu "10" (upscale,
restricted since 5 ≤ 100) and memory "2" (downscale, NOT restricted by the
claim since 5 < 10): the code reverts BOTH resources — the output Target
memory is 3, where the claim requires the untouched 2. -/
theorem c2_replicaGuard_counterexample :
    replicaRestrictionsProcess c2Vpa (Except.ok c2Pod) (some c2Rec) =
      some { containerRecommendations := [c2OutContainer] } ∧
    isDownscale c2Container.target [(cpuResource, 5), (memoryResource, 3)] = true ∧
    ¬ ((10 : ℤ) ≤ c2Vpa.podCount) ∧
    rlGet? c2OutContainer.target memoryResource = some 3 ∧
    some (3 : ℚ) ≠ some (2 : ℚ) :=
  ⟨by with_unfolding_all rfl, by with_unfolding_all rfl, by decide,
   by with_unfolding_all rfl, by norm_num⟩

theorem isRestrictedScaling_iff {cr : RecommendedContainerResources} {c : GoContainer}
    {low high replicas : ℤ} :
    isRestrictedScaling cr c low high replicas = true ↔
      ((isUpscale cr.target c.requests = true ∧ replicas ≤ high) ∨
       (isDownscale cr.target c.requests = true ∧ low ≤ replicas)) := by
  simp [isRestrictedScaling, Bool.or_eq_true, Bool.and_eq_true, decide_eq_true_eq]

/-- Claim C2 (amended): for a VPA in update mode Off or Trigger with a valid
range [low, high], low < high, the guard acts per CONTAINER: when any
resource of a container's Target is an upscale with replicas ≤ high, or any
resource is a downscale with replicas ≥ low, EVERY resource of that
container's Target is reverted to the current request; otherwise the Target
passes through unchanged; LowerBound, UpperBound and UncappedTarget are
never altered. -/
theorem c2_replicaGuard_amended (vpa : ReplicaVpa) (pod : GoPod)
    (rec : RecommendedPodResources) (low high : ℤ)
    (hrange : readRangeFromVPAAnnotations vpa.annots = .ok (some [low, high]))
    (hlh : low < high)
    (hmode : vpa.updateMode = .off ∨ vpa.updateMode = .trigger) :
    ∃ out, replicaRestrictionsProcess vpa (.ok pod) (some rec) = some out ∧
      ∀ cr ∈ rec.containerRecommendations, ∀ c, getContainer cr.containerName pod = some c →
        ({ cr with target :=
            if (isUpscale cr.target c.requests = true ∧ vpa.podCount ≤ high) ∨
               (isDownscale cr.target c.requests = true ∧ low ≤ vpa.podCount)
            then cr.target.map (fun e => (e.1, rlName c.requests e.1))
            else cr.target } : RecommendedContainerResources) ∈ out.containerRecommendations := by
  refine ⟨replicaRestrictionsApply rec vpa.podCount low high pod, ?_, ?_⟩
  · have hnot : ¬ high ≤ low := not_le.mpr hlh
    have hmode2 : ¬ (vpa.updateMode ≠ .off ∧ vpa.updateMode ≠ .trigger) := by
      rcases hmode with h | h <;> simp [h]
    simp [replicaRestrictionsProcess, hrange, hnot, hmode2]
  · intro cr hcr c hc
    refine List.mem_filterMap.mpr ⟨cr, hcr, ?_⟩
    rw [hc]
    have heq : getRecommendationForContainerWithRestrictedScaling c cr vpa.podCount low high =
        ({ cr with target :=
          if (isUpscale cr.target c.requests = true ∧ vpa.podCount ≤ high) ∨
             (isDownscale cr.target c.requests = true ∧ low ≤ vpa.podCount)
          then cr.target.map (fun e => (e.1, rlName c.requests e.1))
          else cr.target } : RecommendedContainerResources) := by
      simp only [getRecommendationForContainerWithRestrictedScaling]
      by_cases hcond : (isUpscale cr.target c.requests = true ∧ vpa.podCount ≤ high) ∨
        (isDownscale cr.target c.requests = true ∧ low ≤ vpa.podCount)
      · have hb : isRestrictedScaling cr c low high vpa.podCount = true :=
          isRestrictedScaling_iff.mpr hcond
        simp [applyRestrictedScalingVPAPolicy, hb, hcond]
      · have hb : isRestrictedScaling cr c low high vpa.podCount = false := by
          rw [← Bool.not_eq_true]
          intro hh
          exact hcond (isRestrictedScaling_iff.mp hh)
        simp [applyRestrictedScalingVPAPolicy, hb, hcond]
    show some (getRecommendationForContainerWithRestrictedScaling c cr vpa.podCount low high) = _
    rw [heq]

/-- Claim C2 witness: the amended theorem applied to the pure-upscale
pass-through scenario with 105 replicas. -/
theorem c2_replicaGuard_amended_witness :
    ∃ out, replicaRestrictionsProcess c2VpaPass (.ok c2Pod) (some c2PassRec) = some out ∧
      ∀ cr ∈ c2PassRec.containerRecommendations, ∀ c, getContainer cr.containerName c2Pod = some c →
        ({ cr with target :=
            if (isUpscale cr.target c.requests = true ∧ c2VpaPass.podCount ≤ 100) ∨
               (isDownscale cr.target c.requests = true ∧ 10 ≤ c2VpaPass.podCount)
            then cr.target.map (fun e => (e.1, rlName c.requests e.1))
            else cr.target } : RecommendedContainerResources) ∈ out.containerRecommendations :=
  c2_replicaGuard_amended c2VpaPass c2Pod c2PassRec 10 100
    (by with_unfolding_all rfl) (by decide) (Or.inl rfl)

theorem e3_order (pick : ℕ → List ResourceName → ℕ) :
    getMaintainedRatiosCalculationOrder pick e3Ratios = .ok e3Ratios := by
  have hedges : ratioEdges e3Ratios = [(cpuResource, memoryResource)] := by with_unfolding_all rfl
  have hnodes : nodesOf [(cpuResource, memoryResource)] = [memoryResource, cpuResource] := by
    with_unfolding_all rfl
  have hl1 : leavesOf [(cpuResource, memoryResource)] [memoryResource, cpuResource] =
      [memoryResource] := by with_unfolding_all rfl
  have hl2 : leavesOf [(cpuResource, memoryResource)] [cpuResource] = [cpuResource] := by
    with_unfolding_all rfl
  have herase1 : [memoryResource, cpuResource].erase memoryResource = [cpuResource] := by
    with_unfolding_all rfl
  have herase2 : [cpuResource].erase cpuResource = ([] : List ResourceName) := by
    with_unfolding_all rfl
  have helim : elimOrder [(cpuResource, memoryResource)] pick 2 0 [memoryResource, cpuResource] =
      some [memoryResource, cpuResource] := by
    rw [elimOrder.eq_def]
    simp only [hl1, Nat.mod_one, List.length_singleton, List.getD, List.get?, List.isEmpty]
    norm_num
    rw [elimOrder.eq_def]
    simp only [hl2, Nat.mod_one, List.length_singleton, List.getD, List.get?, List.isEmpty]
    norm_num
    rw [elimOrder.eq_def]
    norm_num [List.isEmpty]
  have hsort : getSortedResources [(cpuResource, memoryResource)] pick =
      some [cpuResource, memoryResource] := by
    simp only [getSortedResources, hnodes, List.length_cons, List.length_nil, List.length_singleton]
    rw [helim]
    with_unfolding_all rfl
  simp only [getMaintainedRatiosCalculationOrder, hedges]
  rw [hsort]
  with_unfolding_all rfl

/-- Claim C5: scenario E3 — pod template requests cpu "1" and memory
"3000", ratio annotation content cpu → memory with no explicit ratio, input
recommendation cpu "1", memory "1" — produces cpu "1" and memory "3000000m"
(the quantity 3000): the dependent memory value is the cpu recommendation's
milli-value (1000) times the template ratio memory/cpu in milli-units
(3000000/1000 = 3000), set as a milli-quantity; this holds for every leaf
choice the Go map iteration could make. -/
theorem c5_resourceRatio_e3 (pick : ℕ → List ResourceName → ℕ) :
    applyMaintainRatioVPAPolicy pick e3RecList e3Ratios e3Requests =
      [(cpuResource, 1), (memoryResource, 3000)] := by
  simp only [applyMaintainRatioVPAPolicy]
  rw [e3_order pick]
  with_unfolding_all rfl

theorem chain_mem_succ {R : ResourceName → ResourceName → Prop} :
    ∀ (l : List ResourceName) (a : ResourceName), List.Chain R a l →
      ∀ u ∈ a :: l, (∃ w ∈ a :: l, R u w) ∨ (a :: l).getLast? = some u := by
  intro l
  induction l with
  | nil =>
      intro a _ u hu
      right
      rcases List.mem_cons.mp hu with rfl | hu'
      · rfl
      · cases hu'
  | cons b l' ih =>
      intro a hchain u hu
      rcases List.chain_cons.mp hchain with ⟨hab, hchain'⟩
      rcases List.mem_cons.mp hu with rfl | hu'
      · exact Or.inl ⟨b, by simp, hab⟩
      · rcases ih b hchain' u hu' with ⟨w, hw, hr⟩ | hlast
        · exact Or.inl ⟨w, List.mem_cons_of_mem a hw, hr⟩
        · right
          rw [List.getLast?_cons_cons]
          exact hlast

theorem cycle_succ {edges : List (ResourceName × ResourceName)} {v : ResourceName}
    {rest : List ResourceName} (hcyc : IsCycle edges v rest) :
    ∀ u ∈ v :: rest, ∃ w ∈ v :: rest, (u, w) ∈ edges := by
  intro u hu
  have hu' : u ∈ v :: (rest ++ [v]) := by
    rcases List.mem_cons.mp hu with rfl | hu2
    · simp
    · exact List.mem_cons_of_mem _ (List.mem_append_left [v] hu2)
  rcases chain_mem_succ (rest ++ [v]) v hcyc u hu' with ⟨w, hw, hr⟩ | hlast
  · refine ⟨w, ?_, hr⟩
    rcases List.mem_cons.mp hw with rfl | hw'
    · simp
    · rcases List.mem_append.mp hw' with hw2 | hw3
      · exact List.mem_cons_of_mem v hw2
      · rcases List.mem_singleton.mp hw3 with rfl
        simp
  · have hv : u = v := by
      have hlv : (v :: (rest ++ [v])).getLast? = some v := List.getLast?_concat (v :: rest)
      rw [hlv] at hlast
      exact (Option.some_injective _ hlast).symm
    subst hv
    cases hrest : rest with
    | nil =>
        rw [hrest] at hcyc
        exact ⟨u, by simp, (List.chain_cons.mp hcyc).1⟩
    | cons r0 rest' =>
        rw [hrest] at hcyc
        exact ⟨r0, by simp [hrest], (List.chain_cons.mp hcyc).1⟩

theorem leaf_not_in_cycle {edges : List (ResourceName × ResourceName)} {v : ResourceName}
    {rest : List ResourceName} (hcyc : IsCycle edges v rest) {s : List ResourceName}
    (hsub : ∀ u ∈ v :: rest, u ∈ s) {x : ResourceName}
    (hleaf : isLeaf edges s x = true) (hx : x ∈ v :: rest) : False := by
  obtain ⟨w, hwC, hedge⟩ := cycle_succ hcyc x hx
  have hall := List.all_eq_true.mp hleaf (x, w) hedge
  have hws : w ∈ s := hsub w hwC
  simp at hall
  exact hall hws

theorem getD_mod_mem {l : List ResourceName} (hne : l.isEmpty = false) (k : ℕ) :
    l.getD (k % l.length) "" ∈ l := by
  have hpos : 0 < l.length := by
    cases l with
    | nil => simp at hne
    | cons a t => simp
  have hlt : k % l.length < l.length := Nat.mod_lt _ hpos
  rw [List.getD_eq_getElem?_getD, List.getElem?_eq_getElem hlt, Option.getD_some]
  exact List.getElem_mem hlt

theorem elim_stuck {edges : List (ResourceName × ResourceName)} {v : ResourceName}
    {rest : List ResourceName} (hcyc : IsCycle edges v rest)
    (pick : ℕ → List ResourceName → ℕ) :
    ∀ (fuel step : ℕ) (s : List ResourceName), (∀ u ∈ v :: rest, u ∈ s) →
      elimOrder edges pick fuel step s = none := by
  intro fuel
  induction fuel with
  | zero =>
      intro step s hsub
      have hne : s.isEmpty = false := by
        cases hs : s.isEmpty
        · rfl
        · exfalso
          have hv : v ∈ s := hsub v (by simp)
          rw [List.isEmpty_iff.mp hs] at hv
          cases hv
      simp [elimOrder, hne]
  | succ fuel ih =>
      intro step s hsub
      have hne : s.isEmpty = false := by
        cases hs : s.isEmpty
        · rfl
        · exfalso
          have hv : v ∈ s := hsub v (by simp)
          rw [List.isEmpty_iff.mp hs] at hv
          cases hv
      rw [elimOrder.eq_def]
      simp only [hne, Bool.false_eq_true, if_false]
      cases hls : (leavesOf edges s).isEmpty with
      | true => simp [hls]
      | false =>
          simp only [hls, Bool.false_eq_true, if_false]
          have hvmem : (leavesOf edges s).getD
              (pick step (leavesOf edges s) % (leavesOf edges s).length) "" ∈ leavesOf edges s :=
            getD_mod_mem hls _
          have hvs := List.mem_filter.mp hvmem
          have hnotc : (leavesOf edges s).getD
              (pick step (leavesOf edges s) % (leavesOf edges s).length) "" ∉ v :: rest :=
            fun hmem => leaf_not_in_cycle hcyc hsub hvs.2 hmem
          have hsub' : ∀ u ∈ v :: rest, u ∈ s.erase ((leavesOf edges s).getD
              (pick step (leavesOf edges s) % (leavesOf edges s).length) "") := by
            intro u hu
            refine (List.mem_erase_of_ne ?_).mpr (hsub u hu)
            intro he
            exact hnotc (he ▸ hu)
          rw [ih (step + 1) _ hsub']
          rfl

theorem elim_mem_all {edges : List (ResourceName × ResourceName)}
    (pick : ℕ → List ResourceName → ℕ) :
    ∀ (fuel step : ℕ) (s : List ResourceName) (seq : List ResourceName),
      elimOrder edges pick fuel step s = some seq → ∀ x ∈ s, x ∈ seq := by
  intro fuel
  induction fuel with
  | zero =>
      intro step s seq h x hx
      cases hs : s.isEmpty with
      | true =>
          rw [List.isEmpty_iff.mp hs] at hx
          cases hx
      | false =>
          simp only [elimOrder, hs, Bool.false_eq_true, if_false] at h
          cases h
  | succ fuel ih =>
      intro step s seq h x hx
      cases hs : s.isEmpty with
      | true =>
          rw [List.isEmpty_iff.mp hs] at hx
          cases hx
      | false =>
          rw [elimOrder.eq_def] at h
          simp only [hs, Bool.false_eq_true, if_false] at h
          cases hls : (leavesOf edges s).isEmpty with
          | true => rw [hls] at h; simp at h
          | false =>
              simp only [hls, Bool.false_eq_true, if_false] at h
              rcases Option.map_eq_some'.mp h with ⟨restSeq, hrec, rfl⟩
              by_cases hxv : x = (leavesOf edges s).getD
                  (pick step (leavesOf edges s) % (leavesOf edges s).length) ""
              · exact hxv ▸ List.mem_cons_self _ _
              · have hx' : x ∈ s.erase ((leavesOf edges s).getD
                    (pick step (leavesOf edges s) % (leavesOf edges s).length) "") :=
                  (List.mem_erase_of_ne hxv).mpr hx
                exact List.mem_cons_of_mem _ (ih (step + 1) _ restSeq hrec x hx')

theorem mem_addNode_self (l : List ResourceName) (n : ResourceName) : n ∈ addNode l n := by
  rw [addNode]
  by_cases h : l.contains n = true
  · rw [if_pos h]
    simpa using h
  · rw [if_neg h]
    simp

theorem mem_addNode_of {l : List ResourceName} {x : ResourceName} (n : ResourceName)
    (h : x ∈ l) : x ∈ addNode l n := by
  rw [addNode]
  by_cases hc : l.contains n = true
  · rw [if_pos hc]
    exact h
  · rw [if_neg hc]
    exact List.mem_append_left _ h

theorem foldl_addNode_mono {x : ResourceName} :
    ∀ (edges : List (ResourceName × ResourceName)) (acc : List ResourceName), x ∈ acc →
      x ∈ edges.foldl (fun acc e => addNode (addNode acc e.2) e.1) acc := by
  intro edges
  induction edges with
  | nil =>
      intro acc h
      exact h
  | cons e tl ih =>
      intro acc h
      exact ih _ (mem_addNode_of _ (mem_addNode_of _ h))

theorem foldl_addNode_endpoints {a b : ResourceName} :
    ∀ (edges : List (ResourceName × ResourceName)) (acc : List ResourceName), (a, b) ∈ edges →
      a ∈ edges.foldl (fun acc e => addNode (addNode acc e.2) e.1) acc ∧
      b ∈ edges.foldl (fun acc e => addNode (addNode acc e.2) e.1) acc := by
  intro edges
  induction edges with
  | nil =>
      intro acc h
      cases h
  | cons e tl ih =>
      intro acc h
      rcases List.mem_cons.mp h with rfl | htl
      · constructor
        · exact foldl_addNode_mono tl _ (mem_addNode_self _ _)
        · exact foldl_addNode_mono tl _ (mem_addNode_of _ (mem_addNode_self _ _))
      · exact ih _ htl

theorem nodesOf_mem {edges : List (ResourceName × ResourceName)} {a b : ResourceName}
    (h : (a, b) ∈ edges) : a ∈ nodesOf edges ∧ b ∈ nodesOf edges := by
  rw [nodesOf]
  exact foldl_addNode_endpoints edges [] h

theorem one_lt_length_of_two_mem {l : List ResourceName} {a b : ResourceName}
    (ha : a ∈ l) (hb : b ∈ l) (hab : a ≠ b) : 1 < l.length := by
  cases l with
  | nil => cases ha
  | cons x t =>
      cases t with
      | nil =>
          rcases List.mem_singleton.mp ha with rfl
          rcases List.mem_singleton.mp hb with rfl
          exact absurd rfl hab
      | cons y t2 =>
          simp only [List.length_cons]
          omega

theorem mem_predsOf {edges : List (ResourceName × ResourceName)} {sx t : ResourceName}
    (h : (sx, t) ∈ edges) : sx ∈ predsOf edges t := by
  rw [predsOf, List.mem_dedup]
  exact List.mem_map.mpr ⟨(sx, t), List.mem_filter.mpr ⟨h, by simp⟩, rfl⟩

/-- Claim C6: whenever the ratio map's dependency edges contain a cycle of
length ≥ 1, or some resource node has more than one predecessor,
getMaintainedRatiosCalculationOrder reports an error and the enforcer
returns the recommendation unchanged — identity on the processed resource
list, hence on Target, LowerBound and UpperBound of every container — for
every leaf choice the Go map iteration could make. -/
theorem c6_resourceRatio_violations (pick : ℕ → List ResourceName → ℕ)
    (ratios : List ResourceRatioRule)
    (h : HasCycle (ratioEdges ratios) ∨ HasMultiPredecessor (ratioEdges ratios)) :
    (∃ e, getMaintainedRatiosCalculationOrder pick ratios = .error e) ∧
    (∀ recommendation reqs,
      applyMaintainRatioVPAPolicy pick recommendation ratios reqs = recommendation) ∧
    (∀ container cr,
      getRecommendationForContainerWithRatioApplied pick container cr ratios = cr) := by
  have herr : ∃ e, getMaintainedRatiosCalculationOrder pick ratios = .error e := by
    rcases h with ⟨v, rest, hcyc⟩ | ⟨s₁, s₂, t, hne, h1, h2⟩
    · have hsub : ∀ u ∈ v :: rest, u ∈ nodesOf (ratioEdges ratios) := by
        intro u hu
        obtain ⟨w, hwC, hedge⟩ := cycle_succ hcyc u hu
        exact (nodesOf_mem hedge).1
      have hstuck := elim_stuck hcyc pick (nodesOf (ratioEdges ratios)).length 0 _ hsub
      refine ⟨"Error the graph is not acyclic", ?_⟩
      simp only [getMaintainedRatiosCalculationOrder, getSortedResources]
      rw [hstuck]
      rfl
    · cases hsort : getSortedResources (ratioEdges ratios) pick with
      | none =>
          refine ⟨"Error the graph is not acyclic", ?_⟩
          simp only [getMaintainedRatiosCalculationOrder]
          rw [hsort]
      | some ordered =>
          rcases Option.map_eq_some'.mp (by simpa [getSortedResources] using hsort) with
            ⟨seq, helim, hord⟩
          have ht1 : t ∈ nodesOf (ratioEdges ratios) := (nodesOf_mem h1).2
          have htseq : t ∈ seq := elim_mem_all pick _ 0 _ seq helim t ht1
          have htord : t ∈ ordered := by
            rw [← hord]
            exact List.mem_reverse.mpr htseq
          have hlen : 1 < (predsOf (ratioEdges ratios) t).length :=
            one_lt_length_of_two_mem (mem_predsOf h1) (mem_predsOf h2) hne
          have hany : ordered.any
              (fun t => decide (1 < (predsOf (ratioEdges ratios) t).length)) = true :=
            List.any_eq_true.mpr ⟨t, htord, decide_eq_true hlen⟩
          refine ⟨"Resource has more than one predecessor in maintainedRatios", ?_⟩
          simp only [getMaintainedRatiosCalculationOrder]
          rw [hsort]
          simp [hany]
  obtain ⟨e, he⟩ := herr
  have happly : ∀ recommendation reqs,
      applyMaintainRatioVPAPolicy pick recommendation ratios reqs = recommendation := by
    intro rec0 reqs
    by_cases hemp : ratios.isEmpty
    · simp [applyMaintainRatioVPAPolicy, hemp]
    · simp [applyMaintainRatioVPAPolicy, hemp, he]
  refine ⟨⟨e, he⟩, happly, ?_⟩
  intro container cr
  rw [getRecommendationForContainerWithRatioApplied, happly, happly, happly]

/-- Claim C6 witness: the violation theorem applied to the self-loop
cpu → cpu with a concrete recommendation. -/
theorem c6_resourceRatio_violations_witness :
    (∃ e, getMaintainedRatiosCalculationOrder (fun _ _ => 0) c6Ratios = .error e) ∧
    applyMaintainRatioVPAPolicy (fun _ _ => 0) [(cpuResource, 1)] c6Ratios [] =
      [(cpuResource, 1)] := by
  have hcyc : IsCycle (ratioEdges c6Ratios) cpuResource [] := by
    rw [IsCycle]
    refine List.Chain.cons ?_ List.Chain.nil
    rw [edgeMem]
    with_unfolding_all decide
  have h := c6_resourceRatio_violations (fun _ _ => 0) c6Ratios
    (Or.inl ⟨cpuResource, [], hcyc⟩)
  exact ⟨h.1, h.2.1 _ _⟩

theorem le_ite_floor {a m : ℚ} : m ≤ if a < m then m else a := by
  by_cases h : a < m
  · rw [if_pos h]
  · rw [if_neg h]
    exact not_lt.mp h

/-- Claim C7: every container emitted by the external-mode engine has
Target = LowerBound = UpperBound resource-by-resource; every emitted amount
is at least the configured pod minimum for that resource divided by the
number of containers with recommendations; and every emitted container has
a raw external recommendation (no zero-filling). -/
theorem c7_externalEngine (p : ExternalEngineParams) (recs : List (String × ExtResources))
    (aggMap : List (String × AggregateState)) :
    ∀ kv ∈ getRecommendedPodResources p recs aggMap,
      kv.2.target = kv.2.lowerBound ∧ kv.2.target = kv.2.upperBound ∧
      (∀ e ∈ kv.2.target, minResourcesFor p (1 / (recs.length : ℚ)) e.1 ≤ e.2) ∧
      (∃ res, (kv.1, res) ∈ recs) := by
  intro kv hkv
  rw [getRecommendedPodResources] at hkv
  by_cases hemp : recs.isEmpty
  · rw [if_pos hemp] at hkv
    cases hkv
  · rw [if_neg hemp] at hkv
    obtain ⟨kv0, hkv0, hsome⟩ := List.mem_filterMap.mp hkv
    cases hagg : assocGet? aggMap kv0.1 with
    | none => rw [hagg] at hsome; cases hsome
    | some agg =>
        rw [hagg] at hsome
        have hkveq := Option.some_injective _ hsome
        subst hkveq
        refine ⟨rfl, rfl, ?_, ⟨kv0.2, hkv0⟩⟩
        intro e he
        have hefl : e ∈ (kv0.2.map (fun e => (e.1, e.2 + scaleResource e.2 p.safetyMarginFraction))).map
            (fun e => (e.1, if e.2 < minResourcesFor p (1 / (recs.length : ℚ)) e.1 then
              minResourcesFor p (1 / (recs.length : ℚ)) e.1 else e.2)) :=
          (List.mem_filter.mp he).1
        obtain ⟨e0, _, heq⟩ := List.mem_map.mp hefl
        rw [← heq]
        exact le_ite_floor

/-- Claim C7 witness: the engine theorem instantiated at a one-container
input whose raw recommendation sits below the configured minima. -/
theorem c7_externalEngine_witness :
    c7Out.target = c7Out.lowerBound ∧ c7Out.target = c7Out.upperBound ∧
    minResourcesFor c7Params (1 / (c7Recs.length : ℚ)) cpuResource ≤ 25 ∧
    (∃ res, ("container-1", res) ∈ c7Recs) := by
  have hout : getRecommendedPodResources c7Params c7Recs c7Aggs = [("container-1", c7Out)] := by
    with_unfolding_all rfl
  have h := c7_externalEngine c7Params c7Recs c7Aggs ("container-1", c7Out)
    (by rw [hout]; exact List.mem_singleton.mpr rfl)
  exact ⟨h.1, h.2.1, h.2.2.1 (cpuResource, 25) (by with_unfolding_all decide), h.2.2.2⟩

theorem addMetrics_empty_ok {opts : ExternalClientOptions} {name : ResourceName} :
    ∀ {items : List ExternalMetricValue} {m2 : PodContainerResourceMap},
      addMetrics opts name items [] = .ok m2 →
      (∀ v ∈ items, containerIdOf opts v = none) ∧ m2 = [] := by
  intro items
  induction items with
  | nil =>
      intro m2 h
      rw [addMetrics] at h
      cases h
      exact ⟨fun v hv => absurd hv (List.not_mem_nil v), rfl⟩
  | cons val rest ih =>
      intro m2 h
      rw [addMetrics] at h
      cases hcid : containerIdOf opts val with
      | none =>
          simp only [hcid] at h
          obtain ⟨hall, hm⟩ := ih h
          refine ⟨?_, hm⟩
          intro v hv
          rcases List.mem_cons.mp hv with rfl | hv'
          · exact hcid
          · exact hall v hv'
      | some id =>
          simp only [hcid] at h
          simp [alistGet?] at h

theorem addMetrics_empty_fault {opts : ExternalClientOptions} {name : ResourceName} :
    ∀ {items : List ExternalMetricValue},
      (∃ v ∈ items, containerIdOf opts v ≠ none) →
      ∃ msg, addMetrics opts name items [] = .fault msg := by
  intro items
  induction items with
  | nil =>
      intro h
      obtain ⟨v, hv, _⟩ := h
      cases hv
  | cons val rest ih =>
      intro h
      cases hcid : containerIdOf opts val with
      | some id =>
          refine ⟨"assignment to entry in nil map", ?_⟩
          rw [addMetrics]
          simp only [hcid]
          rfl
      | none =>
          obtain ⟨v, hv, hne⟩ := h
          have hv' : v ∈ rest := by
            rcases List.mem_cons.mp hv with rfl | hv'
            · exact absurd hcid hne
            · exact hv'
          obtain ⟨msg, hmsg⟩ := ih ⟨v, hv', hne⟩
          refine ⟨msg, ?_⟩
          rw [addMetrics]
          simp only [hcid]
          exact hmsg

theorem queryLoop_ok {opts : ExternalClientOptions}
    {backend : String → String → Except String (List ExternalMetricValue)} {vpa : MetricsVpa} :
    ∀ {rms : List (ResourceName × String)} {m2 : PodContainerResourceMap},
      metricsQueryLoop opts backend vpa rms [] = .ok m2 →
      ∀ rm ∈ rms, ∀ items, backend rm.2 vpa.podSelector = .ok items →
        ∀ v ∈ items, containerIdOf opts v = none := by
  intro rms
  induction rms with
  | nil =>
      intro m2 _ rm hrm
      cases hrm
  | cons rm0 rest ih =>
      intro m2 h rm hrm items hitems v hv
      rw [metricsQueryLoop] at h
      cases hb : backend rm0.2 vpa.podSelector with
      | error e =>
          simp only [hb] at h
          cases h
      | ok items0 =>
          simp only [hb] at h
          by_cases hemp : items0.isEmpty
          · rw [if_pos hemp] at h
            rcases List.mem_cons.mp hrm with rfl | hrm'
            · rw [hb] at hitems
              cases hitems
              rw [List.isEmpty_iff.mp hemp] at hv
              cases hv
            · exact ih h rm hrm' items hitems v hv
          · rw [if_neg hemp] at h
            cases ha : addMetrics opts rm0.1 items0 [] with
            | err e => simp only [ha] at h; cases h
            | fault f => simp only [ha] at h; cases h
            | ok mAdded =>
                simp only [ha] at h
                obtain ⟨hall, hm⟩ := addMetrics_empty_ok ha
                subst hm
                rcases List.mem_cons.mp hrm with rfl | hrm'
                · rw [hb] at hitems
                  cases hitems
                  exact hall v hv
                · exact ih h rm hrm' items hitems v hv

theorem externalMetricsList_ok {opts : ExternalClientOptions}
    {backend : String → String → Except String (List ExternalMetricValue)} {ns : String} :
    ∀ {vpas : List MetricsVpa} {out : List (MetricsPodID × List (String × ResourceList))},
      externalMetricsList opts backend ns vpas = .ok out →
      ∀ vpa ∈ vpas, vpa.podCount ≠ 0 → ¬ (ns ≠ "" ∧ vpa.idNamespace ≠ ns) →
        ∀ rm ∈ opts.resourceMetrics, ∀ items, backend rm.2 vpa.podSelector = .ok items →
          ∀ v ∈ items, containerIdOf opts v = none := by
  intro vpas
  induction vpas with
  | nil =>
      intro out _ vpa hvpa
      cases hvpa
  | cons vpa0 rest ih =>
      intro out h vpa hvpa hcount hns
      rw [externalMetricsList] at h
      by_cases hc0 : vpa0.podCount = 0
      · rw [if_pos hc0] at h
        rcases List.mem_cons.mp hvpa with rfl | hvpa'
        · exact absurd hc0 hcount
        · exact ih h vpa hvpa' hcount hns
      · rw [if_neg hc0] at h
        by_cases hns0 : ns ≠ "" ∧ vpa0.idNamespace ≠ ns
        · rw [if_pos hns0] at h
          rcases List.mem_cons.mp hvpa with rfl | hvpa'
          · exact absurd hns0 hns
          · exact ih h vpa hvpa' hcount hns
        · rw [if_neg hns0] at h
          cases hq : metricsQueryLoop opts backend vpa0 opts.resourceMetrics [] with
          | err e => simp only [hq] at h; cases h
          | fault f => simp only [hq] at h; cases h
          | ok wv =>
              simp only [hq] at h
              cases hr : externalMetricsList opts backend ns rest with
              | err e => simp only [hr] at h; cases h
              | fault f => simp only [hr] at h; cases h
              | ok restItems =>
                  rcases List.mem_cons.mp hvpa with rfl | hvpa'
                  · exact queryLoop_ok hq
                  · exact ih hr vpa hvpa' hcount hns

/-- Claim C4: the external-metrics accumulation faults on an assignment to
a nil map for any metric list containing a value that carries all three
configured label keys, so List returns normally only when no returned
metric value of any processed query carries all three. -/
theorem c4_externalMetrics_nilMapFault :
    (∀ (opts : ExternalClientOptions) (name : ResourceName)
        (items : List ExternalMetricValue),
      (∃ v ∈ items, containerIdOf opts v ≠ none) →
        ∃ msg, addMetrics opts name items [] = GoResult.fault msg) ∧
    (∀ (opts : ExternalClientOptions)
        (backend : String → String → Except String (List ExternalMetricValue)) (ns : String)
        (vpas : List MetricsVpa) (out : List (MetricsPodID × List (String × ResourceList))),
      externalMetricsList opts backend ns vpas = .ok out →
      ∀ vpa ∈ vpas, vpa.podCount ≠ 0 → ¬ (ns ≠ "" ∧ vpa.idNamespace ≠ ns) →
        ∀ rm ∈ opts.resourceMetrics, ∀ items, backend rm.2 vpa.podSelector = .ok items →
          ∀ v ∈ items, containerIdOf opts v = none) :=
  ⟨fun _ _ _ h => addMetrics_empty_fault h, fun _ _ _ _ _ h => externalMetricsList_ok h⟩

/-- Claim C4 witness: a single metric value carrying the pod-namespace,
pod-name and container-name labels makes the accumulation fault. -/
theorem c4_externalMetrics_nilMapFault_witness :
    ∃ msg, addMetrics c4Opts cpuResource [c4Value] [] = GoResult.fault msg :=
  c4_externalMetrics_nilMapFault.1 c4Opts cpuResource [c4Value]
    ⟨c4Value, List.mem_singleton.mpr rfl, by with_unfolding_all decide⟩

end Autoscaler
